import Mathlib

/-!
# Managed Gurobi environment / solver adapter: verified model

This development embeds the managed-license/environment abstraction behind
`GurobiDirect(manage_env=...)`, the adapter exercised by
`pyomo/solvers/tests/checks/test_gurobi_environments.py`.  The adapter and
the backend it drives are not part of the local sources (only their test
suite is), so the definitions below are modelled from the specification
(sections 3, 4.1, 4.2, 4.3, 7 of the design document), with the observable
behaviour pinned by the assertions of the test suite (expected exception
classes and the recorded environment/model parameter dictionaries).

Machine state is passed explicitly: the `Backend` value carries every
environment handle, model handle, the license capacity, and a log of the
backend calls that were made; adapter operations take and return it.
-/

/-- Parameter values accepted by the backend: integers and strings. -/
inductive GValue where
  | int (n : Int)
  | str (s : String)
deriving Repr, DecidableEq

/-- An association list of parameter settings (name, value). -/
abbrev OptList := List (String × GValue)

/-- Modelled from the spec: the fixed registry classifying settings as
environment-only vs model-level (spec 4.1; the open question in spec 9 leaves
the table to the implementer).  The tests pin `ComputeServer` as a connection
parameter that only an unstarted environment accepts. -/
def isEnvOnly (k : String) : Bool :=
  decide (k = "ComputeServer")

/-- Modelled from the spec: backend-side validity of a parameter value.  The
tests pin `Method 20` and similar out-of-range values as rejected with an
"Unable to set" error, while `Method 2`, `MIPFocus 1/2`, `OutputFlag 0` are
accepted. -/
def validValue : String → GValue → Bool
  | "Method", GValue.int n => decide (-1 ≤ n ∧ n ≤ 5)
  | "Method", _ => false
  | "MIPFocus", GValue.int n => decide (0 ≤ n ∧ n ≤ 3)
  | "MIPFocus", _ => false
  | "OutputFlag", GValue.int n => decide (n = 0 ∨ n = 1)
  | "OutputFlag", _ => false
  | "ComputeServer", GValue.str _ => true
  | "ComputeServer", _ => false
  | _, _ => true

/-- Overwrite every binding of a key that is already present. -/
def replaceKV : OptList → String → GValue → OptList
  | [], _, _ => []
  | p :: rest, k, v =>
    (if p.1 = k then (k, v) else p) :: replaceKV rest k v

/-- Dictionary update on an association list: every binding of the key is
overwritten, a missing key is appended (last write wins, matching the `dict`
recording used by `test_param_set`). -/
def setKV : OptList → String → GValue → OptList
  | [], k, v => [(k, v)]
  | p :: rest, k, v =>
    if p.1 = k then (k, v) :: replaceKV rest k v else p :: setKV rest k v

/-- Dictionary lookup on an association list (first binding wins). -/
def lookupKV : OptList → String → Option GValue
  | [], _ => none
  | p :: rest, k => if p.1 = k then some p.2 else lookupKV rest k

/-- Apply a list of updates to an association list, in order. -/
def applyAll (init : OptList) : OptList → OptList
  | [] => init
  | p :: rest => applyAll (setKV init p.1 p.2) rest

/-- Modelled from the spec: `solve` "merges constructor-time options with
call-time overrides (call-time wins on conflict)" (spec 4.2). -/
def mergeOpts (ctor call : OptList) : OptList := applyAll ctor call

/-- An environment handle: opaque access to the licensed backend
(spec 3, "Environment handle"). -/
structure GEnv where
  envId : Nat
  started : Bool
  closed : Bool
  params : OptList
deriving Repr, DecidableEq

/-- A model handle, bound to the environment that created it
(spec 3, "Model handle"). -/
structure GModel where
  modelId : Nat
  envId : Nat
  closed : Bool
  params : OptList
deriving Repr, DecidableEq

/-- Observable backend calls, logged in order.  A parameter application
appears in the log exactly when the backend accepted it. -/
inductive Event where
  | envCreate (e : Nat)
  | envSet (e : Nat) (k : String) (v : GValue)
  | envStart (e : Nat)
  | envDispose (e : Nat)
  | modelCreate (m : Nat) (e : Nat)
  | modelSet (m : Nat) (k : String) (v : GValue)
  | modelDispose (m : Nat)
deriving Repr, DecidableEq

/-- Backend-native errors (the `gurobipy.GurobiError` family), distinguished
by the diagnostic they carry. -/
inductive GurobiErr where
  | noLicense (msg : String)
  | hostError (msg : String)
  | unableToSet (msg : String)
  | unableToModify (msg : String)
  | invalidState (msg : String)
deriving Repr, DecidableEq

def GurobiErr.message : GurobiErr → String
  | .noLicense m => m
  | .hostError m => m
  | .unableToSet m => m
  | .unableToModify m => m
  | .invalidState m => m

/-- Modelled from the spec: the licensed backend as a whole.  `licenseSlots`
is the number of environments that may hold the license simultaneously
(1 for the single-use license required by most of the tests). -/
structure Backend where
  licenseSlots : Nat
  envs : List GEnv
  models : List GModel
  defaultEnv : Option Nat
  nextEnv : Nat
  nextModel : Nat
  events : List Event
deriving Repr, DecidableEq

/-- A backend with no environments or models: fresh process state. -/
def Backend.init (slots : Nat) : Backend :=
  { licenseSlots := slots, envs := [], models := [], defaultEnv := none,
    nextEnv := 0, nextModel := 0, events := [] }

def findEnvIn : List GEnv → Nat → Option GEnv
  | [], _ => none
  | x :: rest, i => if x.envId = i then some x else findEnvIn rest i

def findModelIn : List GModel → Nat → Option GModel
  | [], _ => none
  | x :: rest, i => if x.modelId = i then some x else findModelIn rest i

def updateEnvIn : List GEnv → Nat → (GEnv → GEnv) → List GEnv
  | [], _, _ => []
  | x :: rest, i, f => (if x.envId = i then f x else x) :: updateEnvIn rest i f

def updateModelIn : List GModel → Nat → (GModel → GModel) → List GModel
  | [], _, _ => []
  | x :: rest, i, f => (if x.modelId = i then f x else x) :: updateModelIn rest i f

/-- An environment holds a license slot while it is started and not closed. -/
def GEnv.live (x : GEnv) : Bool := x.started && !x.closed

/-- Number of license slots currently held. -/
def countLiveEnvs : List GEnv → Nat
  | [] => 0
  | x :: rest => (if x.live then 1 else 0) + countLiveEnvs rest

def hasEnvOnly (l : OptList) : Bool := l.any (fun p => isEnvOnly p.1)

/-- Modelled from the spec: create an environment handle, not yet started
(the adapter stages parameters on it before starting, spec 4.1). -/
def Backend.createEnv (b : Backend) : Backend × Nat :=
  ({ b with
      envs := b.envs ++
        [{ envId := b.nextEnv, started := false, closed := false, params := [] }],
      nextEnv := b.nextEnv + 1,
      events := b.events ++ [Event.envCreate b.nextEnv] },
   b.nextEnv)

/-- Modelled from the spec: apply a setting to an environment handle.
Environment settings must be staged before the handle is started; applying one
after start fails with an invalid-state error (spec 4.1). -/
def Backend.envSetParam (b : Backend) (e : Nat) (k : String) (v : GValue) :
    Except GurobiErr Backend :=
  match findEnvIn b.envs e with
  | none => Except.error (GurobiErr.invalidState "environment does not exist")
  | some env =>
    if env.closed then Except.error (GurobiErr.invalidState "environment closed")
    else if env.started then
      Except.error (GurobiErr.invalidState "environment already started")
    else if validValue k v then
      Except.ok { b with
        envs := updateEnvIn b.envs e (fun x => { x with params := setKV x.params k v }),
        events := b.events ++ [Event.envSet e k v] }
    else Except.error (GurobiErr.unableToSet ("Unable to set parameter " ++ k))

/-- Modelled from the spec: start an environment.  A staged connection
parameter makes the start attempt a server connection, which fails with
"Could not resolve host" (pinned by `test_set_environment_options`); otherwise
the start claims a license slot, failing with a no-license error when every
slot is held (contention, spec 4.1). -/
def Backend.startEnv (b : Backend) (e : Nat) : Except GurobiErr Backend :=
  match findEnvIn b.envs e with
  | none => Except.error (GurobiErr.invalidState "environment does not exist")
  | some env =>
    if env.closed then Except.error (GurobiErr.invalidState "environment closed")
    else if env.started then Except.ok b
    else if hasEnvOnly env.params then
      Except.error (GurobiErr.hostError "Could not resolve host")
    else if b.licenseSlots ≤ countLiveEnvs b.envs then
      Except.error (GurobiErr.noLicense "No Gurobi license available")
    else
      Except.ok { b with
        envs := updateEnvIn b.envs e (fun x => { x with started := true }),
        events := b.events ++ [Event.envStart e] }

/-- Modelled from the spec: apply a setting to a model handle.  An
environment-only setting is refused ("Unable to modify", pinned by
`test_set_environment_options_notmanaged`); an invalid value is refused
("Unable to set", pinned by `test_param_changes`). -/
def Backend.modelSetParam (b : Backend) (m : Nat) (k : String) (v : GValue) :
    Except GurobiErr Backend :=
  match findModelIn b.models m with
  | none => Except.error (GurobiErr.invalidState "model does not exist")
  | some md =>
    if md.closed then Except.error (GurobiErr.invalidState "model closed")
    else if isEnvOnly k then
      Except.error (GurobiErr.unableToModify ("Unable to modify parameter " ++ k))
    else if validValue k v then
      Except.ok { b with
        models := updateModelIn b.models m (fun x => { x with params := setKV x.params k v }),
        events := b.events ++ [Event.modelSet m k v] }
    else Except.error (GurobiErr.unableToSet ("Unable to set parameter " ++ k))

/-- Modelled from the spec: create a model handle bound to a started, live
environment (spec 3, "Model handle"). -/
def Backend.createModel (b : Backend) (e : Nat) : Except GurobiErr (Backend × Nat) :=
  match findEnvIn b.envs e with
  | none => Except.error (GurobiErr.invalidState "environment does not exist")
  | some env =>
    if env.started && !env.closed then
      Except.ok
        ({ b with
            models := b.models ++
              [{ modelId := b.nextModel, envId := e, closed := false, params := [] }],
            nextModel := b.nextModel + 1,
            events := b.events ++ [Event.modelCreate b.nextModel e] },
         b.nextModel)
    else Except.error (GurobiErr.invalidState "environment not started")

/-- Release a model handle.  Idempotent: releasing an already-released handle
is a no-op (spec 4.1, `release`). -/
def Backend.disposeModel (b : Backend) (m : Nat) : Backend :=
  match findModelIn b.models m with
  | none => b
  | some md =>
    if md.closed then b
    else
      { b with
        models := updateModelIn b.models m (fun x => { x with closed := true }),
        events := b.events ++ [Event.modelDispose m] }

/-- Release an environment handle, transitively releasing any model handles
still attached; the license slot it held is freed deterministically.
Idempotent (spec 4.1, `release`). -/
def Backend.disposeEnv (b : Backend) (e : Nat) : Backend :=
  match findEnvIn b.envs e with
  | none => b
  | some env =>
    if env.closed then b
    else
      { b with
        envs := updateEnvIn b.envs e (fun x => { x with closed := true }),
        models := b.models.map (fun x => if x.envId = e then { x with closed := true } else x),
        events := b.events ++
          ((b.models.filter (fun x => decide (x.envId = e) && !x.closed)).map
            (fun x => Event.modelDispose x.modelId)) ++
          [Event.envDispose e] }

/-- `gurobipy.Env()`: create an environment and start it immediately
(an exclusive acquisition of the scarce resource). -/
def Backend.openEnv (b : Backend) : Except GurobiErr (Backend × Nat) :=
  let c := b.createEnv
  match c.1.startEnv c.2 with
  | Except.ok b2 => Except.ok (b2, c.2)
  | Except.error err => Except.error err

/-- The process-wide shared default environment, created and started on first
use (adapters with `manage_env = false` solve against it and never release
it). -/
def Backend.ensureDefaultEnv (b : Backend) : Backend × Except GurobiErr Nat :=
  match b.defaultEnv with
  | some e => (b, Except.ok e)
  | none =>
    let c := b.createEnv
    match c.1.startEnv c.2 with
    | Except.ok b2 => ({ b2 with defaultEnv := some c.2 }, Except.ok c.2)
    | Except.error err => (c.1.disposeEnv c.2, Except.error err)

/-- Adapter-level error taxonomy (spec 7): contention is retryable and
distinct; wrapped backend failures become solve errors; backend-native errors
that escape unwrapped are recorded as such. -/
inductive AdapterErr where
  | resourceUnavailable (msg : String)
  | solveError (msg : String)
  | invalidState (msg : String)
  | gurobiError (err : GurobiErr)
deriving Repr, DecidableEq

/-- Modelled from the spec: adapter-boundary wrapping for backend failures in
the environment phase — contention surfaces distinctly as
`resourceUnavailable`, every other environment-phase backend failure as a
uniform `solveError` carrying the backend diagnostic (spec 4.2, 7). -/
def wrapEnvErr : GurobiErr → AdapterErr
  | GurobiErr.noLicense m => AdapterErr.resourceUnavailable m
  | err => AdapterErr.solveError err.message

/-- Modelled from the spec: the solver adapter (spec 3, "Solver adapter";
spec 4.2).  `env` is the owned environment (populated only when
`manage_env` is set and the environment started successfully); `curModel` is
the most recently created model handle. -/
structure GurobiDirect where
  manage_env : Bool
  options : OptList
  env : Option Nat
  curModel : Option Nat
  closed : Bool
deriving Repr, DecidableEq

/-- Adapter construction: mode flag plus constructor-time option mapping
(spec 4.2). -/
def GurobiDirect.new (manage : Bool) (opts : OptList) : GurobiDirect :=
  { manage_env := manage, options := opts, env := none, curModel := none,
    closed := false }

/-- Apply settings to an environment handle one at a time, stopping at the
first backend refusal (the state already accumulated is kept, as in the
source, where an exception aborts the loop). -/
def applyEnvParams (e : Nat) : Backend → OptList → Backend × Option GurobiErr
  | b, [] => (b, none)
  | b, p :: rest =>
    match b.envSetParam e p.1 p.2 with
    | Except.ok b1 => applyEnvParams e b1 rest
    | Except.error err => (b, some err)

/-- Apply settings to a model handle one at a time, stopping at the first
backend refusal. -/
def applyModelParams (m : Nat) : Backend → OptList → Backend × Option GurobiErr
  | b, [] => (b, none)
  | b, p :: rest =>
    match b.modelSetParam m p.1 p.2 with
    | Except.ok b1 => applyModelParams m b1 rest
    | Except.error err => (b, some err)

/-- Modelled from the spec: obtain the environment for a solve.  With
`manage_env`, the owned environment is created lazily, the constructor
options are staged on it before it is started, and a failed start is
disposed and leaves no residual adapter state, so the next call performs a
fresh attempt (spec 3 Invariant 3, spec 4.3).  Without `manage_env`, the
shared default environment is used. -/
def GurobiDirect.ensureEnv (a : GurobiDirect) (b : Backend) :
    Backend × GurobiDirect × Except AdapterErr Nat :=
  if a.manage_env then
    match a.env with
    | some e => (b, a, Except.ok e)
    | none =>
      let c := b.createEnv
      match applyEnvParams c.2 c.1 a.options with
      | (b2, some err) => (b2.disposeEnv c.2, a, Except.error (wrapEnvErr err))
      | (b2, none) =>
        match b2.startEnv c.2 with
        | Except.ok b3 => (b3, { a with env := some c.2 }, Except.ok c.2)
        | Except.error err => (b2.disposeEnv c.2, a, Except.error (wrapEnvErr err))
  else
    match b.ensureDefaultEnv with
    | (b1, Except.ok e) => (b1, a, Except.ok e)
    | (b1, Except.error err) => (b1, a, Except.error (wrapEnvErr err))

/-- A merged setting is routed to the model only when the identical
name/value pair is not already recorded on the owned environment
(`test_param_set`: "If they are set on the environment, they shouldn't be set
on the model"). -/
def settingNeeded (envP : OptList) (p : String × GValue) : Bool :=
  decide (¬ lookupKV envP p.1 = some p.2)

/-- Result of one adapter `solve` call: the backend state, the adapter state,
and the outcome, all threaded explicitly (an error return is the embedded
form of a raised exception). -/
structure SolveOut where
  backend : Backend
  adapter : GurobiDirect
  result : Except AdapterErr Unit
deriving Repr

/-- Modelled from the spec: one `solve` call (spec 4.2).  Releases the
previous model handle, obtains the environment, creates a fresh model handle,
silences output (`OutputFlag 0`, pinned by `test_param_set`), then applies the
merged options that are not already recorded on the owned environment. -/
def GurobiDirect.solve (a : GurobiDirect) (b : Backend) (callOpts : OptList) : SolveOut :=
  if a.closed then
    { backend := b, adapter := a,
      result := Except.error (AdapterErr.invalidState "solver has been closed") }
  else
    let b0 := match a.curModel with
      | some m => b.disposeModel m
      | none => b
    let a0 := { a with curModel := none }
    match a0.ensureEnv b0 with
    | (b1, a1, Except.error err) =>
      { backend := b1, adapter := a1, result := Except.error err }
    | (b1, a1, Except.ok e) =>
      match b1.createModel e with
      | Except.error err =>
        { backend := b1, adapter := a1,
          result := Except.error (AdapterErr.gurobiError err) }
      | Except.ok (b2, m) =>
        let a2 := { a1 with curModel := some m }
        let envP : OptList := match a2.env with
          | some eid =>
            (match findEnvIn b2.envs eid with
             | some env => env.params
             | none => [])
          | none => []
        let toModel := (mergeOpts a2.options callOpts).filter (settingNeeded envP)
        match applyModelParams m b2 (("OutputFlag", GValue.int 0) :: toModel) with
        | (b3, some err) =>
          { backend := b3, adapter := a2,
            result := Except.error (AdapterErr.gurobiError err) }
        | (b3, none) =>
          { backend := b3, adapter := a2, result := Except.ok () }

/-- Modelled from the spec: `close()` releases the current model handle and,
when owned, the environment; idempotent and safe to call multiple times
(spec 4.2). -/
def GurobiDirect.close (a : GurobiDirect) (b : Backend) : Backend × GurobiDirect :=
  let b1 := match a.curModel with
    | some m => b.disposeModel m
    | none => b
  let b2 :=
    if a.manage_env then
      match a.env with
      | some e => b1.disposeEnv e
      | none => b1
    else b1
  (b2, { a with curModel := none, env := none, closed := true })

/-- Modelled from the spec: scoped acquisition — the body runs with a fresh
adapter and `close` is invoked on every exit path, including when the body
ends in an error (spec 4.2, 8 P5). -/
def withGurobiDirect (manage : Bool) (opts : OptList) (b : Backend)
    (body : Backend → GurobiDirect → Backend × GurobiDirect × Except AdapterErr Unit) :
    Backend × GurobiDirect × Except AdapterErr Unit :=
  let st := body b (GurobiDirect.new manage opts)
  let fin := st.2.1.close st.1
  (fin.1, fin.2, st.2.2)

/-- A sequence of solve calls on one adapter, threading state. -/
def solveSeq : GurobiDirect → Backend → List OptList → Backend × GurobiDirect
  | a, b, [] => (b, a)
  | a, b, opts :: rest =>
    let out := a.solve b opts
    solveSeq out.adapter out.backend rest

/-- Well-formedness of the environment side of a backend: identifiers are
below the allocation counter and pairwise distinct. -/
def Backend.wfEnvs (b : Backend) : Prop :=
  (∀ x ∈ b.envs, x.envId < b.nextEnv) ∧ (b.envs.map GEnv.envId).Nodup

/-- Well-formedness of the model side of a backend. -/
def Backend.wfModels (b : Backend) : Prop :=
  (∀ x ∈ b.models, x.modelId < b.nextModel) ∧ (b.models.map GModel.modelId).Nodup

def Backend.wf (b : Backend) : Prop := b.wfEnvs ∧ b.wfModels

instance (b : Backend) : Decidable b.wfEnvs := by
  unfold Backend.wfEnvs; infer_instance

instance (b : Backend) : Decidable b.wfModels := by
  unfold Backend.wfModels; infer_instance

instance (b : Backend) : Decidable b.wf := by
  unfold Backend.wf; infer_instance

/-- Number of live (unreleased) model handles. -/
def countLiveModels : List GModel → Nat
  | [] => 0
  | x :: rest => (if x.closed then 0 else 1) + countLiveModels rest

/-- Every model handle in the list has been released. -/
def noLiveModels (l : List GModel) : Prop := ∀ md ∈ l, md.closed = true

instance (l : List GModel) : Decidable (noLiveModels l) := by
  unfold noLiveModels; infer_instance

/-- The model-turnover invariant (spec 4.2, P4): the backend's model side is
well formed and every live model handle is the adapter's current one. -/
def modelTurnoverInv (b : Backend) (a : GurobiDirect) : Prop :=
  b.wfModels ∧ ∀ md ∈ b.models, md.closed = false → a.curModel = some md.modelId

instance (b : Backend) (a : GurobiDirect) : Decidable (modelTurnoverInv b a) := by
  unfold modelTurnoverInv; infer_instance

/-- The settings recorded on the adapter's owned environment after a solve. -/
def recordedEnvParams (out : SolveOut) : OptList :=
  match out.adapter.env with
  | some e =>
    (match findEnvIn out.backend.envs e with
     | some env => env.params
     | none => [])
  | none => []

/-- The settings recorded on the adapter's current model handle after a
solve. -/
def recordedModelParams (out : SolveOut) : OptList :=
  match out.adapter.curModel with
  | some m =>
    (match findModelIn out.backend.models m with
     | some md => md.params
     | none => [])
  | none => []

/-- The effective value of a setting after a solve: the model-level recording
wins over the environment-level one (a model binding overrides the
environment's for that solve). -/
def effectiveValue (out : SolveOut) (k : String) : Option GValue :=
  match lookupKV (recordedModelParams out) k with
  | some v => some v
  | none => lookupKV (recordedEnvParams out) k

/-- The key set of an association list. -/
def keysOf (l : OptList) : List String := l.map Prod.fst

/-- Every value in the option list is accepted by the backend. -/
def allValid (l : OptList) : Prop := ∀ p ∈ l, validValue p.1 p.2 = true

/-- No environment-only setting occurs in the option list. -/
def noEnvOnly (l : OptList) : Prop := ∀ p ∈ l, isEnvOnly p.1 = false

instance (l : OptList) : Decidable (allValid l) := by
  unfold allValid; infer_instance

instance (l : OptList) : Decidable (noEnvOnly l) := by
  unfold noEnvOnly; infer_instance


/-- A backend whose single license slot is held by an already-open
environment (the `with gp.Env():` block of `test_persisted_license_failure`). -/
def heldBackend : Backend :=
  { licenseSlots := 1,
    envs := [{ envId := 0, started := true, closed := false, params := [] }],
    models := [], defaultEnv := none, nextEnv := 1, nextModel := 0,
    events := [Event.envCreate 0, Event.envStart 0] }

/-- The `test_param_set` scenario: constructor options `Method 2, MIPFocus 1`,
solve-time option `MIPFocus 2`, `manage_env` set. -/
def paramSetOut : SolveOut :=
  (GurobiDirect.new true
    [("Method", GValue.int 2), ("MIPFocus", GValue.int 1)]).solve
    (Backend.init 1) [("MIPFocus", GValue.int 2)]

/-- A solve-time out-of-range parameter on a managed adapter
(the last case of `test_param_changes`). -/
def paramLeakOut : SolveOut :=
  (GurobiDirect.new true []).solve (Backend.init 1) [("Method", GValue.int 20)]

/-- A solve-time caller-supplied `OutputFlag 1`. -/
def outputFlagOut : SolveOut :=
  (GurobiDirect.new true []).solve (Backend.init 1) [("OutputFlag", GValue.int 1)]

/-- One solve on a fresh single-use backend (as in `test_close`). -/
def singleSolveOut : SolveOut :=
  (GurobiDirect.new true []).solve (Backend.init 1) []

/-- A scoped-use body that performs one solve and ends in its result
(exercising the scoped-acquisition path of `test_context`). -/
def demoBody (b : Backend) (a : GurobiDirect) :
    Backend × GurobiDirect × Except AdapterErr Unit :=
  ((a.solve b []).backend, (a.solve b []).adapter, (a.solve b []).result)

theorem keysOf_nil : keysOf [] = [] := rfl

theorem keysOf_cons (p : String × GValue) (l : OptList) :
    keysOf (p :: l) = p.1 :: keysOf l := rfl

theorem lookupKV_replaceKV_ne (l : OptList) (k : String) (v : GValue) (k' : String)
    (h : ¬ k = k') : lookupKV (replaceKV l k v) k' = lookupKV l k' := by
  induction l with
  | nil => rfl
  | cons p rest ih =>
    by_cases hp : p.1 = k
    · have hpk' : ¬ p.1 = k' := by rw [hp]; exact h
      simp only [replaceKV, if_pos hp, lookupKV]
      rw [if_neg h, if_neg hpk', ih]
    · simp only [replaceKV, if_neg hp, lookupKV]
      by_cases hk' : p.1 = k'
      · rw [if_pos hk', if_pos hk']
      · rw [if_neg hk', if_neg hk', ih]

theorem lookupKV_setKV (l : OptList) (k : String) (v : GValue) (k' : String) :
    lookupKV (setKV l k v) k' = if k = k' then some v else lookupKV l k' := by
  induction l with
  | nil => simp only [setKV, lookupKV]
  | cons p rest ih =>
    by_cases hp : p.1 = k
    · simp only [setKV, if_pos hp, lookupKV]
      by_cases hk : k = k'
      · rw [if_pos hk, if_pos hk]
      · have hpk' : ¬ p.1 = k' := by rw [hp]; exact hk
        rw [if_neg hk, if_neg hk, lookupKV_replaceKV_ne _ _ _ _ hk, if_neg hpk']
    · simp only [setKV, if_neg hp, lookupKV]
      by_cases hk' : p.1 = k'
      · have hkk' : ¬ k = k' := fun hkk => hp (by rw [hk']; exact hkk.symm)
        rw [if_pos hk', if_neg hkk', if_pos hk']
      · simp only [if_neg hk']
        exact ih

theorem lookupKV_mem (l : OptList) (k : String) (v : GValue)
    (h : lookupKV l k = some v) : (k, v) ∈ l := by
  induction l with
  | nil => simp [lookupKV] at h
  | cons p rest ih =>
    simp only [lookupKV] at h
    by_cases hp : p.1 = k
    · rw [if_pos hp] at h
      injection h with h
      have hkv : (k, v) = p := by rw [← hp, ← h]
      rw [hkv]
      exact List.mem_cons_self p rest
    · rw [if_neg hp] at h
      exact List.mem_cons_of_mem _ (ih h)

theorem lookupKV_eq_none (l : OptList) (k : String) (h : k ∉ keysOf l) :
    lookupKV l k = none := by
  induction l with
  | nil => rfl
  | cons p rest ih =>
    rw [keysOf_cons, List.mem_cons, not_or] at h
    simp only [lookupKV]
    rw [if_neg (fun hp => h.1 hp.symm)]
    exact ih h.2

theorem mem_replaceKV (l : OptList) (k : String) (v : GValue) (q : String × GValue)
    (h : q ∈ replaceKV l k v) : q = (k, v) ∨ q ∈ l := by
  induction l with
  | nil => simp [replaceKV] at h
  | cons p rest ih =>
    simp only [replaceKV, List.mem_cons] at h
    rcases h with h | h
    · by_cases hp : p.1 = k
      · rw [if_pos hp] at h; exact Or.inl h
      · rw [if_neg hp] at h
        exact Or.inr (by rw [h]; exact List.mem_cons_self p rest)
    · rcases ih h with h | h
      · exact Or.inl h
      · exact Or.inr (List.mem_cons_of_mem _ h)

theorem mem_setKV (l : OptList) (k : String) (v : GValue) (q : String × GValue)
    (h : q ∈ setKV l k v) : q = (k, v) ∨ q ∈ l := by
  induction l with
  | nil =>
    simp only [setKV, List.mem_singleton] at h
    exact Or.inl h
  | cons p rest ih =>
    by_cases hp : p.1 = k
    · rw [setKV, if_pos hp] at h
      rcases List.mem_cons.mp h with h | h
      · exact Or.inl h
      · rcases mem_replaceKV _ _ _ _ h with h | h
        · exact Or.inl h
        · exact Or.inr (List.mem_cons_of_mem _ h)
    · rw [setKV, if_neg hp] at h
      rcases List.mem_cons.mp h with h | h
      · exact Or.inr (by rw [h]; exact List.mem_cons_self p rest)
      · rcases ih h with h | h
        · exact Or.inl h
        · exact Or.inr (List.mem_cons_of_mem _ h)

theorem mem_applyAll (l : OptList) (q : String × GValue) :
    ∀ init : OptList, q ∈ applyAll init l → q ∈ init ∨ q ∈ l := by
  induction l with
  | nil => exact fun init h => Or.inl h
  | cons p rest ih =>
    intro init h
    rcases ih (setKV init p.1 p.2) h with h | h
    · rcases mem_setKV _ _ _ _ h with h | h
      · exact Or.inr (by rw [h]; exact List.mem_cons_self p rest)
      · exact Or.inl h
    · exact Or.inr (List.mem_cons_of_mem _ h)

theorem keysOf_replaceKV (l : OptList) (k : String) (v : GValue) :
    keysOf (replaceKV l k v) = keysOf l := by
  induction l with
  | nil => rfl
  | cons p rest ih =>
    simp only [replaceKV, keysOf_cons]
    by_cases hp : p.1 = k
    · rw [if_pos hp, ih, hp]
    · rw [if_neg hp, ih]

theorem keysOf_setKV (l : OptList) (k : String) (v : GValue) :
    keysOf (setKV l k v) = if k ∈ keysOf l then keysOf l else keysOf l ++ [k] := by
  induction l with
  | nil => simp [setKV, keysOf]
  | cons p rest ih =>
    by_cases hp : p.1 = k
    · simp only [setKV, if_pos hp, keysOf_cons]
      have hmem : k ∈ p.1 :: keysOf rest := by
        rw [hp]
        exact List.mem_cons_self _ _
      rw [if_pos hmem, keysOf_replaceKV, hp]
    · simp only [setKV, if_neg hp, keysOf_cons, ih]
      have hne : ¬ k = p.1 := fun h => hp h.symm
      by_cases hmem : k ∈ keysOf rest
      · rw [if_pos hmem, if_pos (List.mem_cons_of_mem _ hmem)]
      · have hnot : k ∉ p.1 :: keysOf rest :=
          fun hc => (List.mem_cons.mp hc).elim hne hmem
        rw [if_neg hmem, if_neg hnot, List.cons_append]

theorem nodup_keysOf_setKV (l : OptList) (k : String) (v : GValue)
    (h : (keysOf l).Nodup) : (keysOf (setKV l k v)).Nodup := by
  rw [keysOf_setKV]
  by_cases hmem : k ∈ keysOf l
  · rwa [if_pos hmem]
  · rw [if_neg hmem]
    simp [List.nodup_append, h, hmem]

theorem nodup_keysOf_applyAll (l : OptList) :
    ∀ init : OptList, (keysOf init).Nodup → (keysOf (applyAll init l)).Nodup := by
  induction l with
  | nil => exact fun _ h => h
  | cons p rest ih => exact fun init h => ih _ (nodup_keysOf_setKV _ _ _ h)

theorem lookupKV_applyAll_of_none (l : OptList) (k : String) :
    ∀ init : OptList, lookupKV l k = none →
      lookupKV (applyAll init l) k = lookupKV init k := by
  induction l with
  | nil => exact fun _ _ => rfl
  | cons p rest ih =>
    intro init h
    simp only [lookupKV] at h
    by_cases hp : p.1 = k
    · rw [if_pos hp] at h
      exact absurd h (by simp)
    · rw [if_neg hp] at h
      simp only [applyAll]
      rw [ih _ h, lookupKV_setKV, if_neg hp]

theorem lookupKV_applyAll_of_some (l : OptList) (k : String) (v : GValue)
    (hnd : (keysOf l).Nodup) (h : lookupKV l k = some v) :
    ∀ init : OptList, lookupKV (applyAll init l) k = some v := by
  induction l with
  | nil => simp [lookupKV] at h
  | cons p rest ih =>
    intro init
    rw [keysOf_cons, List.nodup_cons] at hnd
    simp only [lookupKV] at h
    by_cases hp : p.1 = k
    · rw [if_pos hp] at h
      injection h with h
      have hrest : lookupKV rest k = none :=
        lookupKV_eq_none _ _ (by rw [← hp]; exact hnd.1)
      simp only [applyAll]
      rw [lookupKV_applyAll_of_none _ _ _ hrest, lookupKV_setKV, if_pos hp, h]
    · rw [if_neg hp] at h
      exact ih hnd.2 h _

theorem lookupKV_filter_none (l : OptList) (q : String × GValue → Bool) (k : String)
    (h : lookupKV l k = none) : lookupKV (l.filter q) k = none := by
  induction l with
  | nil => rfl
  | cons p rest ih =>
    simp only [lookupKV] at h
    by_cases hp : p.1 = k
    · rw [if_pos hp] at h
      exact absurd h (by simp)
    · rw [if_neg hp] at h
      by_cases hq : q p
      · rw [List.filter_cons_of_pos hq, lookupKV, if_neg hp]
        exact ih h
      · rw [List.filter_cons_of_neg (by simpa using hq)]
        exact ih h

theorem lookupKV_filter_some (l : OptList) (q : String × GValue → Bool) (k : String)
    (v : GValue) (hnd : (keysOf l).Nodup) (h : lookupKV l k = some v) :
    lookupKV (l.filter q) k = if q (k, v) then some v else none := by
  induction l with
  | nil => simp [lookupKV] at h
  | cons p rest ih =>
    rw [keysOf_cons, List.nodup_cons] at hnd
    simp only [lookupKV] at h
    by_cases hp : p.1 = k
    · rw [if_pos hp] at h
      injection h with h
      have hpkv : p = (k, v) := by rw [← hp, ← h]
      have hrest : lookupKV rest k = none :=
        lookupKV_eq_none _ _ (by rw [← hp]; exact hnd.1)
      by_cases hq : q p
      · rw [List.filter_cons_of_pos hq, lookupKV, if_pos hp, h,
          if_pos (by rw [← hpkv]; exact hq)]
      · rw [List.filter_cons_of_neg (by simpa using hq),
          if_neg (by rw [← hpkv]; simpa using hq)]
        exact lookupKV_filter_none _ _ _ hrest
    · rw [if_neg hp] at h
      by_cases hq : q p
      · rw [List.filter_cons_of_pos hq, lookupKV, if_neg hp]
        exact ih hnd.2 h
      · rw [List.filter_cons_of_neg (by simpa using hq)]
        exact ih hnd.2 h

theorem findEnvIn_append (l1 l2 : List GEnv) (i : Nat) :
    findEnvIn (l1 ++ l2) i =
      match findEnvIn l1 i with
      | some x => some x
      | none => findEnvIn l2 i := by
  induction l1 with
  | nil => rfl
  | cons x rest ih =>
    by_cases hx : x.envId = i
    · simp only [List.cons_append, findEnvIn, if_pos hx]
    · simp only [List.cons_append, findEnvIn]
      rw [if_neg hx, if_neg hx]
      exact ih

theorem findModelIn_append (l1 l2 : List GModel) (i : Nat) :
    findModelIn (l1 ++ l2) i =
      match findModelIn l1 i with
      | some x => some x
      | none => findModelIn l2 i := by
  induction l1 with
  | nil => rfl
  | cons x rest ih =>
    by_cases hx : x.modelId = i
    · simp only [List.cons_append, findModelIn, if_pos hx]
    · simp only [List.cons_append, findModelIn]
      rw [if_neg hx, if_neg hx]
      exact ih

theorem findEnvIn_eq_none (l : List GEnv) (i : Nat) (h : ∀ x ∈ l, x.envId ≠ i) :
    findEnvIn l i = none := by
  induction l with
  | nil => rfl
  | cons x rest ih =>
    simp only [findEnvIn]
    rw [if_neg (h x (List.mem_cons_self x rest))]
    exact ih (fun y hy => h y (List.mem_cons_of_mem _ hy))

theorem findModelIn_eq_none (l : List GModel) (i : Nat) (h : ∀ x ∈ l, x.modelId ≠ i) :
    findModelIn l i = none := by
  induction l with
  | nil => rfl
  | cons x rest ih =>
    simp only [findModelIn]
    rw [if_neg (h x (List.mem_cons_self x rest))]
    exact ih (fun y hy => h y (List.mem_cons_of_mem _ hy))

theorem findEnvIn_mem (l : List GEnv) (i : Nat) (x : GEnv)
    (h : findEnvIn l i = some x) : x ∈ l ∧ x.envId = i := by
  induction l with
  | nil => simp [findEnvIn] at h
  | cons y rest ih =>
    simp only [findEnvIn] at h
    by_cases hy : y.envId = i
    · rw [if_pos hy] at h
      injection h with h
      exact ⟨h ▸ List.mem_cons_self y rest, h ▸ hy⟩
    · rw [if_neg hy] at h
      obtain ⟨hm, hi⟩ := ih h
      exact ⟨List.mem_cons_of_mem _ hm, hi⟩

theorem findModelIn_mem (l : List GModel) (i : Nat) (x : GModel)
    (h : findModelIn l i = some x) : x ∈ l ∧ x.modelId = i := by
  induction l with
  | nil => simp [findModelIn] at h
  | cons y rest ih =>
    simp only [findModelIn] at h
    by_cases hy : y.modelId = i
    · rw [if_pos hy] at h
      injection h with h
      exact ⟨h ▸ List.mem_cons_self y rest, h ▸ hy⟩
    · rw [if_neg hy] at h
      obtain ⟨hm, hi⟩ := ih h
      exact ⟨List.mem_cons_of_mem _ hm, hi⟩

theorem findEnvIn_updateEnvIn_same (l : List GEnv) (i : Nat) (f : GEnv → GEnv)
    (hf : ∀ x, (f x).envId = x.envId) :
    findEnvIn (updateEnvIn l i f) i = (findEnvIn l i).map f := by
  induction l with
  | nil => rfl
  | cons x rest ih =>
    simp only [updateEnvIn]
    by_cases hx : x.envId = i
    · rw [if_pos hx]
      simp only [findEnvIn]
      rw [if_pos (show (f x).envId = i by rw [hf x]; exact hx), if_pos hx]
      rfl
    · rw [if_neg hx]
      simp only [findEnvIn]
      rw [if_neg hx, if_neg hx]
      exact ih

theorem findEnvIn_updateEnvIn_ne (l : List GEnv) (i j : Nat) (f : GEnv → GEnv)
    (hf : ∀ x, (f x).envId = x.envId) (hij : ¬ i = j) :
    findEnvIn (updateEnvIn l i f) j = findEnvIn l j := by
  induction l with
  | nil => rfl
  | cons x rest ih =>
    simp only [updateEnvIn]
    by_cases hx : x.envId = i
    · rw [if_pos hx]
      simp only [findEnvIn]
      rw [if_neg (show ¬ (f x).envId = j by rw [hf x, hx]; exact hij),
        if_neg (show ¬ x.envId = j by rw [hx]; exact hij)]
      exact ih
    · rw [if_neg hx]
      simp only [findEnvIn]
      by_cases hxj : x.envId = j
      · rw [if_pos hxj, if_pos hxj]
      · rw [if_neg hxj, if_neg hxj]
        exact ih

theorem findModelIn_updateModelIn_same (l : List GModel) (i : Nat) (f : GModel → GModel)
    (hf : ∀ x, (f x).modelId = x.modelId) :
    findModelIn (updateModelIn l i f) i = (findModelIn l i).map f := by
  induction l with
  | nil => rfl
  | cons x rest ih =>
    simp only [updateModelIn]
    by_cases hx : x.modelId = i
    · rw [if_pos hx]
      simp only [findModelIn]
      rw [if_pos (show (f x).modelId = i by rw [hf x]; exact hx), if_pos hx]
      rfl
    · rw [if_neg hx]
      simp only [findModelIn]
      rw [if_neg hx, if_neg hx]
      exact ih

theorem findModelIn_updateModelIn_ne (l : List GModel) (i j : Nat) (f : GModel → GModel)
    (hf : ∀ x, (f x).modelId = x.modelId) (hij : ¬ i = j) :
    findModelIn (updateModelIn l i f) j = findModelIn l j := by
  induction l with
  | nil => rfl
  | cons x rest ih =>
    simp only [updateModelIn]
    by_cases hx : x.modelId = i
    · rw [if_pos hx]
      simp only [findModelIn]
      rw [if_neg (show ¬ (f x).modelId = j by rw [hf x, hx]; exact hij),
        if_neg (show ¬ x.modelId = j by rw [hx]; exact hij)]
      exact ih
    · rw [if_neg hx]
      simp only [findModelIn]
      by_cases hxj : x.modelId = j
      · rw [if_pos hxj, if_pos hxj]
      · rw [if_neg hxj, if_neg hxj]
        exact ih

theorem map_updateEnvIn {α : Type} (l : List GEnv) (i : Nat) (f : GEnv → GEnv)
    (g : GEnv → α) (hf : ∀ x, g (f x) = g x) :
    (updateEnvIn l i f).map g = l.map g := by
  induction l with
  | nil => rfl
  | cons x rest ih =>
    simp only [updateEnvIn, List.map_cons, ih]
    by_cases hx : x.envId = i
    · rw [if_pos hx, hf x]
    · rw [if_neg hx]

theorem map_updateModelIn {α : Type} (l : List GModel) (i : Nat) (f : GModel → GModel)
    (g : GModel → α) (hf : ∀ x, g (f x) = g x) :
    (updateModelIn l i f).map g = l.map g := by
  induction l with
  | nil => rfl
  | cons x rest ih =>
    simp only [updateModelIn, List.map_cons, ih]
    by_cases hx : x.modelId = i
    · rw [if_pos hx, hf x]
    · rw [if_neg hx]

theorem mem_updateEnvIn (l : List GEnv) (i : Nat) (f : GEnv → GEnv) (q : GEnv)
    (h : q ∈ updateEnvIn l i f) :
    ∃ x ∈ l, q = if x.envId = i then f x else x := by
  induction l with
  | nil => simp [updateEnvIn] at h
  | cons x rest ih =>
    rcases List.mem_cons.mp h with h | h
    · exact ⟨x, List.mem_cons_self x rest, h⟩
    · obtain ⟨y, hy, hq⟩ := ih h
      exact ⟨y, List.mem_cons_of_mem _ hy, hq⟩

theorem mem_updateModelIn (l : List GModel) (i : Nat) (f : GModel → GModel) (q : GModel)
    (h : q ∈ updateModelIn l i f) :
    ∃ x ∈ l, q = if x.modelId = i then f x else x := by
  induction l with
  | nil => simp [updateModelIn] at h
  | cons x rest ih =>
    rcases List.mem_cons.mp h with h | h
    · exact ⟨x, List.mem_cons_self x rest, h⟩
    · obtain ⟨y, hy, hq⟩ := ih h
      exact ⟨y, List.mem_cons_of_mem _ hy, hq⟩

theorem countLiveEnvs_append (l1 l2 : List GEnv) :
    countLiveEnvs (l1 ++ l2) = countLiveEnvs l1 + countLiveEnvs l2 := by
  induction l1 with
  | nil => simp [countLiveEnvs]
  | cons x rest ih =>
    simp only [List.cons_append, countLiveEnvs]
    rw [show countLiveEnvs (rest.append l2) = countLiveEnvs rest + countLiveEnvs l2 from ih]
    omega

theorem countLiveEnvs_updateEnvIn (l : List GEnv) (i : Nat) (f : GEnv → GEnv)
    (hf : ∀ x, (f x).live = x.live) :
    countLiveEnvs (updateEnvIn l i f) = countLiveEnvs l := by
  induction l with
  | nil => rfl
  | cons x rest ih =>
    simp only [updateEnvIn, countLiveEnvs, ih]
    by_cases hx : x.envId = i
    · rw [if_pos hx, hf x]
    · rw [if_neg hx]

theorem updateEnvIn_id_of_absent (l : List GEnv) (i : Nat) (f : GEnv → GEnv)
    (h : ∀ x ∈ l, x.envId ≠ i) : updateEnvIn l i f = l := by
  induction l with
  | nil => rfl
  | cons x rest ih =>
    simp only [updateEnvIn]
    rw [if_neg (h x (List.mem_cons_self x rest)),
      ih (fun y hy => h y (List.mem_cons_of_mem _ hy))]

theorem closed_env_not_live (x : GEnv) :
    ({ x with closed := true } : GEnv).live = false := by
  simp [GEnv.live]

theorem countLiveEnvs_close_of_all (l : List GEnv) (e : Nat)
    (h : ∀ x ∈ l, x.live = true → x.envId = e) :
    countLiveEnvs (updateEnvIn l e (fun x => { x with closed := true })) = 0 := by
  induction l with
  | nil => rfl
  | cons x rest ih =>
    simp only [updateEnvIn, countLiveEnvs]
    rw [ih (fun y hy => h y (List.mem_cons_of_mem _ hy))]
    by_cases hx : x.envId = e
    · rw [if_pos hx]
      simp [GEnv.live]
    · have hlive : x.live = false := by
        by_cases hl : x.live = true
        · exact absurd (h x (List.mem_cons_self x rest) hl) hx
        · simpa using hl
      rw [if_neg hx, hlive]
      simp

theorem countLiveEnvs_close_found (l : List GEnv) (e : Nat) (env : GEnv)
    (hnd : (l.map GEnv.envId).Nodup)
    (hfind : findEnvIn l e = some env) (hlive : env.live = true) :
    countLiveEnvs (updateEnvIn l e (fun x => { x with closed := true })) + 1 =
      countLiveEnvs l := by
  induction l with
  | nil => simp [findEnvIn] at hfind
  | cons x rest ih =>
    rw [List.map_cons, List.nodup_cons] at hnd
    simp only [findEnvIn] at hfind
    by_cases hx : x.envId = e
    · rw [if_pos hx] at hfind
      injection hfind with hfind
      have hrest : updateEnvIn rest e (fun x => { x with closed := true }) = rest := by
        refine updateEnvIn_id_of_absent _ _ _ (fun y hy hye => ?_)
        refine hnd.1 ?_
        rw [hx, ← hye]
        exact List.mem_map_of_mem GEnv.envId hy
      simp only [updateEnvIn, countLiveEnvs]
      rw [if_pos hx, hrest, closed_env_not_live]
      have hxl : x.live = true := by rw [hfind]; exact hlive
      rw [hxl]
      simp
      omega
    · rw [if_neg hx] at hfind
      simp only [updateEnvIn, countLiveEnvs]
      rw [if_neg hx]
      have := ih hnd.2 hfind
      omega

theorem bnot_true_of_false {b : Bool} (h : b = false) : ¬ b = true := by
  rw [h]; simp

theorem envSetParam_eq_ok (b : Backend) (e : Nat) (k : String) (v : GValue) (env : GEnv)
    (hfind : findEnvIn b.envs e = some env) (hcl : env.closed = false)
    (hst : env.started = false) (hv : validValue k v = true) :
    b.envSetParam e k v = Except.ok
      { b with
        envs := updateEnvIn b.envs e (fun x => { x with params := setKV x.params k v }),
        events := b.events ++ [Event.envSet e k v] } := by
  simp only [Backend.envSetParam, hfind]
  rw [if_neg (bnot_true_of_false hcl), if_neg (bnot_true_of_false hst), if_pos hv]

theorem envSetParam_started (b : Backend) (e : Nat) (k : String) (v : GValue) (env : GEnv)
    (hfind : findEnvIn b.envs e = some env) (hcl : env.closed = false)
    (hst : env.started = true) :
    b.envSetParam e k v =
      Except.error (GurobiErr.invalidState "environment already started") := by
  simp only [Backend.envSetParam, hfind]
  rw [if_neg (bnot_true_of_false hcl), if_pos hst]

theorem startEnv_eq_ok (b : Backend) (e : Nat) (env : GEnv)
    (hfind : findEnvIn b.envs e = some env) (hcl : env.closed = false)
    (hst : env.started = false) (henv : hasEnvOnly env.params = false)
    (hcap : countLiveEnvs b.envs < b.licenseSlots) :
    b.startEnv e = Except.ok
      { b with
        envs := updateEnvIn b.envs e (fun x => { x with started := true }),
        events := b.events ++ [Event.envStart e] } := by
  simp only [Backend.startEnv, hfind]
  rw [if_neg (bnot_true_of_false hcl), if_neg (bnot_true_of_false hst),
    if_neg (bnot_true_of_false henv), if_neg (by omega)]

theorem startEnv_contention (b : Backend) (e : Nat) (env : GEnv)
    (hfind : findEnvIn b.envs e = some env) (hcl : env.closed = false)
    (hst : env.started = false) (henv : hasEnvOnly env.params = false)
    (hcap : b.licenseSlots ≤ countLiveEnvs b.envs) :
    b.startEnv e = Except.error (GurobiErr.noLicense "No Gurobi license available") := by
  simp only [Backend.startEnv, hfind]
  rw [if_neg (bnot_true_of_false hcl), if_neg (bnot_true_of_false hst),
    if_neg (bnot_true_of_false henv), if_pos hcap]

theorem startEnv_hostError (b : Backend) (e : Nat) (env : GEnv)
    (hfind : findEnvIn b.envs e = some env) (hcl : env.closed = false)
    (hst : env.started = false) (henv : hasEnvOnly env.params = true) :
    b.startEnv e = Except.error (GurobiErr.hostError "Could not resolve host") := by
  simp only [Backend.startEnv, hfind]
  rw [if_neg (bnot_true_of_false hcl), if_neg (bnot_true_of_false hst), if_pos henv]

theorem modelSetParam_eq_ok (b : Backend) (m : Nat) (k : String) (v : GValue) (md : GModel)
    (hfind : findModelIn b.models m = some md) (hcl : md.closed = false)
    (hk : isEnvOnly k = false) (hv : validValue k v = true) :
    b.modelSetParam m k v = Except.ok
      { b with
        models := updateModelIn b.models m (fun x => { x with params := setKV x.params k v }),
        events := b.events ++ [Event.modelSet m k v] } := by
  simp only [Backend.modelSetParam, hfind]
  rw [if_neg (bnot_true_of_false hcl), if_neg (bnot_true_of_false hk), if_pos hv]

theorem modelSetParam_envOnly (b : Backend) (m : Nat) (k : String) (v : GValue) (md : GModel)
    (hfind : findModelIn b.models m = some md) (hcl : md.closed = false)
    (hk : isEnvOnly k = true) :
    b.modelSetParam m k v =
      Except.error (GurobiErr.unableToModify ("Unable to modify parameter " ++ k)) := by
  simp only [Backend.modelSetParam, hfind]
  rw [if_neg (bnot_true_of_false hcl), if_pos hk]

theorem createModel_eq_ok (b : Backend) (e : Nat) (env : GEnv)
    (hfind : findEnvIn b.envs e = some env) (hst : env.started = true)
    (hcl : env.closed = false) :
    b.createModel e = Except.ok
      ({ b with
          models := b.models ++
            [{ modelId := b.nextModel, envId := e, closed := false, params := [] }],
          nextModel := b.nextModel + 1,
          events := b.events ++ [Event.modelCreate b.nextModel e] },
       b.nextModel) := by
  simp only [Backend.createModel, hfind]
  rw [if_pos (by rw [hst, hcl]; rfl)]

theorem updateEnv_params_facts (l : List GEnv) (e : Nat) (k : String) (v : GValue) :
    findEnvIn (updateEnvIn l e (fun x => { x with params := setKV x.params k v })) e
        = (findEnvIn l e).map (fun x => { x with params := setKV x.params k v })
      ∧ (∀ j, ¬ j = e →
          findEnvIn (updateEnvIn l e (fun x => { x with params := setKV x.params k v })) j
            = findEnvIn l j)
      ∧ countLiveEnvs (updateEnvIn l e (fun x => { x with params := setKV x.params k v }))
          = countLiveEnvs l
      ∧ (updateEnvIn l e (fun x => { x with params := setKV x.params k v })).map GEnv.envId
          = l.map GEnv.envId :=
  ⟨findEnvIn_updateEnvIn_same _ _ _ (fun _ => rfl),
   fun _ hj => findEnvIn_updateEnvIn_ne _ _ _ _ (fun _ => rfl) (fun he => hj he.symm),
   countLiveEnvs_updateEnvIn _ _ _ (fun _ => rfl),
   map_updateEnvIn _ _ _ _ (fun _ => rfl)⟩

theorem updateEnv_start_facts (l : List GEnv) (e : Nat) :
    findEnvIn (updateEnvIn l e (fun x => { x with started := true })) e
        = (findEnvIn l e).map (fun x => { x with started := true })
      ∧ (∀ j, ¬ j = e →
          findEnvIn (updateEnvIn l e (fun x => { x with started := true })) j
            = findEnvIn l j)
      ∧ (updateEnvIn l e (fun x => { x with started := true })).map GEnv.envId
          = l.map GEnv.envId :=
  ⟨findEnvIn_updateEnvIn_same _ _ _ (fun _ => rfl),
   fun _ hj => findEnvIn_updateEnvIn_ne _ _ _ _ (fun _ => rfl) (fun he => hj he.symm),
   map_updateEnvIn _ _ _ _ (fun _ => rfl)⟩

theorem updateEnv_close_facts (l : List GEnv) (e : Nat) :
    findEnvIn (updateEnvIn l e (fun x => { x with closed := true })) e
        = (findEnvIn l e).map (fun x => { x with closed := true })
      ∧ (∀ j, ¬ j = e →
          findEnvIn (updateEnvIn l e (fun x => { x with closed := true })) j
            = findEnvIn l j)
      ∧ (updateEnvIn l e (fun x => { x with closed := true })).map GEnv.envId
          = l.map GEnv.envId :=
  ⟨findEnvIn_updateEnvIn_same _ _ _ (fun _ => rfl),
   fun _ hj => findEnvIn_updateEnvIn_ne _ _ _ _ (fun _ => rfl) (fun he => hj he.symm),
   map_updateEnvIn _ _ _ _ (fun _ => rfl)⟩

theorem updateModel_params_facts (l : List GModel) (m : Nat) (k : String) (v : GValue) :
    findModelIn (updateModelIn l m (fun x => { x with params := setKV x.params k v })) m
        = (findModelIn l m).map (fun x => { x with params := setKV x.params k v })
      ∧ (∀ j, ¬ j = m →
          findModelIn (updateModelIn l m (fun x => { x with params := setKV x.params k v })) j
            = findModelIn l j)
      ∧ (updateModelIn l m (fun x => { x with params := setKV x.params k v })).map
            GModel.modelId = l.map GModel.modelId
      ∧ (updateModelIn l m (fun x => { x with params := setKV x.params k v })).map
            (fun md => (md.modelId, md.closed)) = l.map (fun md => (md.modelId, md.closed)) :=
  ⟨findModelIn_updateModelIn_same _ _ _ (fun _ => rfl),
   fun _ hj => findModelIn_updateModelIn_ne _ _ _ _ (fun _ => rfl) (fun he => hj he.symm),
   map_updateModelIn _ _ _ _ (fun _ => rfl),
   map_updateModelIn _ _ _ _ (fun _ => rfl)⟩

theorem updateModel_close_facts (l : List GModel) (m : Nat) :
    findModelIn (updateModelIn l m (fun x => { x with closed := true })) m
        = (findModelIn l m).map (fun x => { x with closed := true })
      ∧ (∀ j, ¬ j = m →
          findModelIn (updateModelIn l m (fun x => { x with closed := true })) j
            = findModelIn l j)
      ∧ (updateModelIn l m (fun x => { x with closed := true })).map GModel.modelId
          = l.map GModel.modelId :=
  ⟨findModelIn_updateModelIn_same _ _ _ (fun _ => rfl),
   fun _ hj => findModelIn_updateModelIn_ne _ _ _ _ (fun _ => rfl) (fun he => hj he.symm),
   map_updateModelIn _ _ _ _ (fun _ => rfl)⟩

theorem applyEnvParams_ok (l : OptList) :
    ∀ (b : Backend) (e : Nat) (env : GEnv),
      findEnvIn b.envs e = some env → env.started = false → env.closed = false →
      allValid l →
      ∃ b' : Backend,
        applyEnvParams e b l = (b', none) ∧
        findEnvIn b'.envs e = some { env with params := applyAll env.params l } ∧
        (∀ j, ¬ j = e → findEnvIn b'.envs j = findEnvIn b.envs j) ∧
        countLiveEnvs b'.envs = countLiveEnvs b.envs ∧
        b'.envs.map GEnv.envId = b.envs.map GEnv.envId ∧
        b'.licenseSlots = b.licenseSlots ∧
        b'.models = b.models ∧
        b'.nextEnv = b.nextEnv ∧
        b'.nextModel = b.nextModel ∧
        b'.defaultEnv = b.defaultEnv := by
  induction l with
  | nil =>
    intro b e env hfind hst hcl _
    refine ⟨b, rfl, ?_, fun j _ => rfl, rfl, rfl, rfl, rfl, rfl, rfl, rfl⟩
    simpa using hfind
  | cons p rest ih =>
    intro b e env hfind hst hcl hval
    have hv : validValue p.1 p.2 = true := hval p (List.mem_cons_self _ _)
    have hstep := envSetParam_eq_ok b e p.1 p.2 env hfind hcl hst hv
    simp only [applyEnvParams, hstep]
    have hfacts := updateEnv_params_facts b.envs e p.1 p.2
    have hfind1 : findEnvIn
        (updateEnvIn b.envs e (fun x => { x with params := setKV x.params p.1 p.2 })) e =
        some { env with params := setKV env.params p.1 p.2 } := by
      rw [hfacts.1, hfind]
      rfl
    obtain ⟨b', hrun, hfindb', hother, hcount, hids, hslots, hmodels, hne, hnm, hde⟩ :=
      ih { b with
            envs := updateEnvIn b.envs e
              (fun x => { x with params := setKV x.params p.1 p.2 }),
            events := b.events ++ [Event.envSet e p.1 p.2] }
        e { env with params := setKV env.params p.1 p.2 } hfind1 hst hcl
        (fun q hq => hval q (List.mem_cons_of_mem _ hq))
    refine ⟨b', hrun, hfindb', ?_, ?_, ?_, hslots, hmodels, hne, hnm, hde⟩
    · intro j hj
      rw [hother j hj]
      exact hfacts.2.1 j hj
    · rw [hcount]
      exact hfacts.2.2.1
    · rw [hids]
      exact hfacts.2.2.2

theorem applyModelParams_ok (l : OptList) :
    ∀ (b : Backend) (m : Nat) (md : GModel),
      findModelIn b.models m = some md → md.closed = false →
      allValid l → noEnvOnly l →
      ∃ b' : Backend,
        applyModelParams m b l = (b', none) ∧
        findModelIn b'.models m = some { md with params := applyAll md.params l } ∧
        (∀ j, ¬ j = m → findModelIn b'.models j = findModelIn b.models j) ∧
        b'.models.map (fun q => (q.modelId, q.closed))
          = b.models.map (fun q => (q.modelId, q.closed)) ∧
        b'.envs = b.envs ∧
        b'.licenseSlots = b.licenseSlots ∧
        b'.nextEnv = b.nextEnv ∧
        b'.nextModel = b.nextModel ∧
        b'.defaultEnv = b.defaultEnv := by
  induction l with
  | nil =>
    intro b m md hfind hcl _ _
    refine ⟨b, rfl, ?_, fun j _ => rfl, rfl, rfl, rfl, rfl, rfl, rfl⟩
    simpa using hfind
  | cons p rest ih =>
    intro b m md hfind hcl hval henv
    have hv : validValue p.1 p.2 = true := hval p (List.mem_cons_self _ _)
    have hk : isEnvOnly p.1 = false := henv p (List.mem_cons_self _ _)
    have hstep := modelSetParam_eq_ok b m p.1 p.2 md hfind hcl hk hv
    simp only [applyModelParams, hstep]
    have hfacts := updateModel_params_facts b.models m p.1 p.2
    have hfind1 : findModelIn
        (updateModelIn b.models m (fun x => { x with params := setKV x.params p.1 p.2 })) m =
        some { md with params := setKV md.params p.1 p.2 } := by
      rw [hfacts.1, hfind]
      rfl
    obtain ⟨b', hrun, hfindb', hother, hshape, henvs, hslots, hne, hnm, hde⟩ :=
      ih { b with
            models := updateModelIn b.models m
              (fun x => { x with params := setKV x.params p.1 p.2 }),
            events := b.events ++ [Event.modelSet m p.1 p.2] }
        m { md with params := setKV md.params p.1 p.2 } hfind1 hcl
        (fun q hq => hval q (List.mem_cons_of_mem _ hq))
        (fun q hq => henv q (List.mem_cons_of_mem _ hq))
    refine ⟨b', hrun, hfindb', ?_, ?_, henvs, hslots, hne, hnm, hde⟩
    · intro j hj
      rw [hother j hj]
      exact hfacts.2.1 j hj
    · rw [hshape]
      exact hfacts.2.2.2

theorem findModelIn_none_forall (l : List GModel) (i : Nat)
    (h : findModelIn l i = none) : ∀ x ∈ l, ¬ x.modelId = i := by
  induction l with
  | nil => intro x hx; simp at hx
  | cons y rest ih =>
    simp only [findModelIn] at h
    by_cases hy : y.modelId = i
    · rw [if_pos hy] at h; simp at h
    · rw [if_neg hy] at h
      intro x hx
      rcases List.mem_cons.mp hx with hx | hx
      · rw [hx]; exact hy
      · exact ih h x hx

theorem findEnvIn_none_forall (l : List GEnv) (i : Nat)
    (h : findEnvIn l i = none) : ∀ x ∈ l, ¬ x.envId = i := by
  induction l with
  | nil => intro x hx; simp at hx
  | cons y rest ih =>
    simp only [findEnvIn] at h
    by_cases hy : y.envId = i
    · rw [if_pos hy] at h; simp at h
    · rw [if_neg hy] at h
      intro x hx
      rcases List.mem_cons.mp hx with hx | hx
      · rw [hx]; exact hy
      · exact ih h x hx

theorem countLiveEnvs_close_notlive (l : List GEnv) (e : Nat) (env : GEnv)
    (hnd : (l.map GEnv.envId).Nodup)
    (hfind : findEnvIn l e = some env) (hlive : env.live = false) :
    countLiveEnvs (updateEnvIn l e (fun x => { x with closed := true })) =
      countLiveEnvs l := by
  induction l with
  | nil => rfl
  | cons x rest ih =>
    rw [List.map_cons, List.nodup_cons] at hnd
    simp only [findEnvIn] at hfind
    by_cases hx : x.envId = e
    · rw [if_pos hx] at hfind
      injection hfind with hfind
      have hrest : updateEnvIn rest e (fun x => { x with closed := true }) = rest := by
        refine updateEnvIn_id_of_absent _ _ _ (fun y hy hye => ?_)
        refine hnd.1 ?_
        rw [hx, ← hye]
        exact List.mem_map_of_mem GEnv.envId hy
      simp only [updateEnvIn, countLiveEnvs]
      rw [if_pos hx, hrest, closed_env_not_live]
      have hxl : x.live = false := by rw [hfind]; exact hlive
      rw [hxl]
    · rw [if_neg hx] at hfind
      simp only [updateEnvIn, countLiveEnvs]
      rw [if_neg hx, ih hnd.2 hfind]

theorem hasEnvOnly_false_of (l : OptList) (h : noEnvOnly l) : hasEnvOnly l = false := by
  simp only [hasEnvOnly, List.any_eq_false]
  intro p hp
  rw [h p hp]
  simp

theorem noEnvOnly_applyAll (l init : OptList) (hl : noEnvOnly l) (hi : noEnvOnly init) :
    noEnvOnly (applyAll init l) := by
  intro p hp
  rcases mem_applyAll _ _ _ hp with hp | hp
  · exact hi p hp
  · exact hl p hp

theorem allValid_applyAll (l init : OptList) (hl : allValid l) (hi : allValid init) :
    allValid (applyAll init l) := by
  intro p hp
  rcases mem_applyAll _ _ _ hp with hp | hp
  · exact hi p hp
  · exact hl p hp

/-- Effect of a fresh managed environment acquisition when the license is
available and the constructor options are acceptable and not
environment-only: the environment starts, carrying exactly the constructor
options as its settings. -/
theorem ensureEnv_managed_fresh_ok (a : GurobiDirect) (b : Backend)
    (hman : a.manage_env = true) (henv : a.env = none)
    (hwf : b.wfEnvs)
    (hval : allValid a.options) (hnoe : noEnvOnly a.options)
    (hcap : countLiveEnvs b.envs < b.licenseSlots) :
    ∃ b3 : Backend,
      a.ensureEnv b = (b3, { a with env := some b.nextEnv }, Except.ok b.nextEnv) ∧
      findEnvIn b3.envs b.nextEnv =
        some { envId := b.nextEnv, started := true, closed := false,
               params := applyAll [] a.options } ∧
      (∀ j, ¬ j = b.nextEnv → findEnvIn b3.envs j = findEnvIn b.envs j) ∧
      b3.models = b.models ∧
      b3.nextModel = b.nextModel ∧
      b3.licenseSlots = b.licenseSlots ∧
      b3.nextEnv = b.nextEnv + 1 ∧
      b3.defaultEnv = b.defaultEnv ∧
      b3.envs.map GEnv.envId = b.envs.map GEnv.envId ++ [b.nextEnv] := by
  have hfresh : ∀ x ∈ b.envs, ¬ x.envId = b.nextEnv :=
    fun x hx he => Nat.ne_of_lt (hwf.1 x hx) he
  have hfindc : findEnvIn
      (b.envs ++ [{ envId := b.nextEnv, started := false, closed := false, params := [] }])
      b.nextEnv =
      some { envId := b.nextEnv, started := false, closed := false, params := [] } := by
    rw [findEnvIn_append, findEnvIn_eq_none b.envs b.nextEnv hfresh]
    simp [findEnvIn]
  obtain ⟨b2, hrun, hfind2, hother2, hcount2, hids2, hslots2, hmodels2, hnE2, hnM2, hdE2⟩ :=
    applyEnvParams_ok a.options
      { b with
        envs := b.envs ++
          [{ envId := b.nextEnv, started := false, closed := false, params := [] }],
        nextEnv := b.nextEnv + 1,
        events := b.events ++ [Event.envCreate b.nextEnv] }
      b.nextEnv
      { envId := b.nextEnv, started := false, closed := false, params := [] }
      hfindc rfl rfl hval
  have hcount2' : countLiveEnvs b2.envs = countLiveEnvs b.envs := by
    rw [hcount2]
    simp only [countLiveEnvs_append, countLiveEnvs]
    simp [GEnv.live]
  have henvonly : hasEnvOnly (applyAll [] a.options) = false :=
    hasEnvOnly_false_of _ (noEnvOnly_applyAll _ _ hnoe (fun p hp => by simp at hp))
  have hstart := startEnv_eq_ok b2 b.nextEnv
    { envId := b.nextEnv, started := false, closed := false, params := applyAll [] a.options }
    hfind2 rfl rfl henvonly (by rw [hcount2', hslots2]; exact hcap)
  refine ⟨{ b2 with
      envs := updateEnvIn b2.envs b.nextEnv (fun x => { x with started := true }),
      events := b2.events ++ [Event.envStart b.nextEnv] },
    ?_, ?_, ?_, ?_, ?_, ?_, ?_, ?_, ?_⟩
  · simp only [GurobiDirect.ensureEnv, hman, if_pos rfl, henv, Backend.createEnv]
    rw [hrun]
    simp only [hstart]
    simp
  · rw [(updateEnv_start_facts b2.envs b.nextEnv).1, hfind2]
    rfl
  · intro j hj
    rw [(updateEnv_start_facts b2.envs b.nextEnv).2.1 j hj, hother2 j hj, findEnvIn_append]
    cases hfj : findEnvIn b.envs j with
    | some x => rfl
    | none =>
      simp only [findEnvIn]
      rw [if_neg (fun he => hj he.symm)]
  · exact hmodels2
  · exact hnM2
  · exact hslots2
  · exact hnE2
  · exact hdE2
  · rw [(updateEnv_start_facts b2.envs b.nextEnv).2.2, hids2]
    simp

theorem live_closed_false (x : GEnv) (h : x.live = true) : x.closed = false := by
  simp only [GEnv.live, Bool.and_eq_true, Bool.not_eq_true'] at h
  exact h.2

theorem map_modelId_closeEnvMap (l : List GModel) (e : Nat) :
    (l.map (fun x => if x.envId = e then { x with closed := true } else x)).map
      GModel.modelId = l.map GModel.modelId := by
  induction l with
  | nil => rfl
  | cons x rest ih =>
    simp only [List.map_cons, ih]
    by_cases hx : x.envId = e
    · rw [if_pos hx]
    · rw [if_neg hx]

theorem disposeEnv_facts (b : Backend) (e : Nat) :
    (b.disposeEnv e).envs.map GEnv.envId = b.envs.map GEnv.envId ∧
    (b.disposeEnv e).models.map GModel.modelId = b.models.map GModel.modelId ∧
    (b.disposeEnv e).licenseSlots = b.licenseSlots ∧
    (b.disposeEnv e).nextEnv = b.nextEnv ∧
    (b.disposeEnv e).nextModel = b.nextModel ∧
    (b.disposeEnv e).defaultEnv = b.defaultEnv := by
  simp only [Backend.disposeEnv]
  split
  · exact ⟨rfl, rfl, rfl, rfl, rfl, rfl⟩
  · split
    · exact ⟨rfl, rfl, rfl, rfl, rfl, rfl⟩
    · exact ⟨(updateEnv_close_facts _ _).2.2, map_modelId_closeEnvMap _ _, rfl, rfl, rfl, rfl⟩

theorem disposeEnv_countLive_dec (b : Backend) (e : Nat) (env : GEnv)
    (hnd : (b.envs.map GEnv.envId).Nodup)
    (hfind : findEnvIn b.envs e = some env) (hlive : env.live = true) :
    countLiveEnvs (b.disposeEnv e).envs + 1 = countLiveEnvs b.envs := by
  have hclosed := live_closed_false env hlive
  simp only [Backend.disposeEnv, hfind]
  rw [if_neg (bnot_true_of_false hclosed)]
  exact countLiveEnvs_close_found b.envs e env hnd hfind hlive

theorem disposeEnv_countLive_notlive (b : Backend) (e : Nat) (env : GEnv)
    (hnd : (b.envs.map GEnv.envId).Nodup)
    (hfind : findEnvIn b.envs e = some env) (hlive : env.live = false) :
    countLiveEnvs (b.disposeEnv e).envs = countLiveEnvs b.envs := by
  simp only [Backend.disposeEnv, hfind]
  by_cases hcl : env.closed = true
  · rw [if_pos hcl]
  · rw [if_neg hcl]
    exact countLiveEnvs_close_notlive b.envs e env hnd hfind hlive

theorem disposeEnv_findEnv_ne (b : Backend) (e j : Nat) (hj : ¬ j = e) :
    findEnvIn (b.disposeEnv e).envs j = findEnvIn b.envs j := by
  simp only [Backend.disposeEnv]
  split
  · rfl
  · split
    · rfl
    · exact (updateEnv_close_facts _ _).2.1 j hj

theorem wfEnvs_of_eq (b b' : Backend)
    (hids : b'.envs.map GEnv.envId = b.envs.map GEnv.envId)
    (hn : b'.nextEnv = b.nextEnv) (h : b.wfEnvs) : b'.wfEnvs := by
  constructor
  · intro x hx
    have hmem : x.envId ∈ b'.envs.map GEnv.envId := List.mem_map_of_mem _ hx
    rw [hids] at hmem
    rcases List.mem_map.mp hmem with ⟨y, hy, hxy⟩
    rw [hn, ← hxy]
    exact h.1 y hy
  · rw [hids]
    exact h.2

theorem wfModels_of_eq (b b' : Backend)
    (hids : b'.models.map GModel.modelId = b.models.map GModel.modelId)
    (hn : b'.nextModel = b.nextModel) (h : b.wfModels) : b'.wfModels := by
  constructor
  · intro x hx
    have hmem : x.modelId ∈ b'.models.map GModel.modelId := List.mem_map_of_mem _ hx
    rw [hids] at hmem
    rcases List.mem_map.mp hmem with ⟨y, hy, hxy⟩
    rw [hn, ← hxy]
    exact h.1 y hy
  · rw [hids]
    exact h.2

/-- Effect of a fresh managed environment acquisition under contention: the
adapter surfaces the retryable resource-unavailable failure, the freshly
created (never started) environment is disposed again, and no license slot or
pre-existing environment is affected — there is no residual adapter state
(spec 3 Invariant 3, spec 4.3). -/
theorem ensureEnv_managed_fresh_contention (a : GurobiDirect) (b : Backend)
    (hman : a.manage_env = true) (henv : a.env = none)
    (hwf : b.wfEnvs)
    (hval : allValid a.options) (hnoe : noEnvOnly a.options)
    (hcap : b.licenseSlots ≤ countLiveEnvs b.envs) :
    ∃ bF : Backend,
      a.ensureEnv b =
        (bF, a, Except.error (AdapterErr.resourceUnavailable "No Gurobi license available")) ∧
      (∀ j, ¬ j = b.nextEnv → findEnvIn bF.envs j = findEnvIn b.envs j) ∧
      countLiveEnvs bF.envs = countLiveEnvs b.envs ∧
      bF.envs.map GEnv.envId = b.envs.map GEnv.envId ++ [b.nextEnv] ∧
      bF.models.map GModel.modelId = b.models.map GModel.modelId ∧
      bF.licenseSlots = b.licenseSlots ∧
      bF.nextEnv = b.nextEnv + 1 ∧
      bF.nextModel = b.nextModel ∧
      bF.defaultEnv = b.defaultEnv := by
  have hfresh : ∀ x ∈ b.envs, ¬ x.envId = b.nextEnv :=
    fun x hx he => Nat.ne_of_lt (hwf.1 x hx) he
  have hfindc : findEnvIn
      (b.envs ++ [{ envId := b.nextEnv, started := false, closed := false, params := [] }])
      b.nextEnv =
      some { envId := b.nextEnv, started := false, closed := false, params := [] } := by
    rw [findEnvIn_append, findEnvIn_eq_none b.envs b.nextEnv hfresh]
    simp [findEnvIn]
  obtain ⟨b2, hrun, hfind2, hother2, hcount2, hids2, hslots2, hmodels2, hnE2, hnM2, hdE2⟩ :=
    applyEnvParams_ok a.options
      { b with
        envs := b.envs ++
          [{ envId := b.nextEnv, started := false, closed := false, params := [] }],
        nextEnv := b.nextEnv + 1,
        events := b.events ++ [Event.envCreate b.nextEnv] }
      b.nextEnv
      { envId := b.nextEnv, started := false, closed := false, params := [] }
      hfindc rfl rfl hval
  have hcount2' : countLiveEnvs b2.envs = countLiveEnvs b.envs := by
    rw [hcount2]
    simp only [countLiveEnvs_append, countLiveEnvs]
    simp [GEnv.live]
  have hids2' : b2.envs.map GEnv.envId = b.envs.map GEnv.envId ++ [b.nextEnv] := by
    rw [hids2]
    simp
  have hnd2 : (b2.envs.map GEnv.envId).Nodup := by
    rw [hids2']
    simp only [List.nodup_append, List.nodup_singleton]
    refine ⟨hwf.2, trivial, ?_⟩
    intro x hx hy
    rw [List.mem_singleton] at hy
    rcases List.mem_map.mp hx with ⟨z, hz, hzx⟩
    exact Nat.ne_of_lt (hwf.1 z hz) (by rw [hzx]; exact hy)
  have henvonly : hasEnvOnly (applyAll [] a.options) = false :=
    hasEnvOnly_false_of _ (noEnvOnly_applyAll _ _ hnoe (fun p hp => by simp at hp))
  have hstart := startEnv_contention b2 b.nextEnv
    { envId := b.nextEnv, started := false, closed := false, params := applyAll [] a.options }
    hfind2 rfl rfl henvonly (by rw [hcount2', hslots2]; exact hcap)
  refine ⟨b2.disposeEnv b.nextEnv, ?_, ?_, ?_, ?_, ?_, ?_, ?_, ?_, ?_⟩
  · simp only [GurobiDirect.ensureEnv, hman, if_pos rfl, henv, Backend.createEnv]
    rw [hrun]
    simp only [hstart]
    simp [wrapEnvErr]
  · intro j hj
    rw [disposeEnv_findEnv_ne _ _ _ hj, hother2 j hj, findEnvIn_append]
    cases hfj : findEnvIn b.envs j with
    | some x => rfl
    | none =>
      simp only [findEnvIn]
      rw [if_neg (fun he => hj he.symm)]
  · rw [disposeEnv_countLive_notlive b2 b.nextEnv
      { envId := b.nextEnv, started := false, closed := false, params := applyAll [] a.options }
      hnd2 hfind2 rfl]
    exact hcount2'
  · rw [(disposeEnv_facts b2 b.nextEnv).1]
    exact hids2'
  · rw [(disposeEnv_facts b2 b.nextEnv).2.1, hmodels2]
  · rw [(disposeEnv_facts b2 b.nextEnv).2.2.1]
    exact hslots2
  · rw [(disposeEnv_facts b2 b.nextEnv).2.2.2.1]
    exact hnE2
  · rw [(disposeEnv_facts b2 b.nextEnv).2.2.2.2.1]
    exact hnM2
  · rw [(disposeEnv_facts b2 b.nextEnv).2.2.2.2.2]
    exact hdE2

theorem adapter_eta (a : GurobiDirect) (hcur : a.curModel = none)
    (hclosed : a.closed = false) :
    ({ manage_env := a.manage_env, options := a.options, env := a.env,
       curModel := none, closed := false } : GurobiDirect) = a := by
  cases a with
  | mk mng opts env0 cur0 cls =>
    change cur0 = none at hcur
    change cls = false at hclosed
    subst hcur
    subst hclosed
    rfl

/-- A `solve` on a fresh managed adapter under total license contention fails
with the retryable error and returns the adapter unchanged: nothing is cached
from the failed attempt (spec 3 Invariant 3, spec 7, spec 8 P1). -/
theorem solve_fresh_managed_contention (a : GurobiDirect) (b : Backend) (callOpts : OptList)
    (hman : a.manage_env = true) (henv : a.env = none) (hcur : a.curModel = none)
    (hclosed : a.closed = false)
    (hwfE : b.wfEnvs)
    (hvo : allValid a.options) (hno : noEnvOnly a.options)
    (hcap : b.licenseSlots ≤ countLiveEnvs b.envs) :
    (a.solve b callOpts).result =
      Except.error (AdapterErr.resourceUnavailable "No Gurobi license available") ∧
    (a.solve b callOpts).adapter = a ∧
    (∀ j, ¬ j = b.nextEnv →
      findEnvIn (a.solve b callOpts).backend.envs j = findEnvIn b.envs j) ∧
    countLiveEnvs (a.solve b callOpts).backend.envs = countLiveEnvs b.envs ∧
    (a.solve b callOpts).backend.envs.map GEnv.envId =
      b.envs.map GEnv.envId ++ [b.nextEnv] ∧
    (a.solve b callOpts).backend.models.map GModel.modelId =
      b.models.map GModel.modelId ∧
    (a.solve b callOpts).backend.licenseSlots = b.licenseSlots ∧
    (a.solve b callOpts).backend.nextEnv = b.nextEnv + 1 ∧
    (a.solve b callOpts).backend.nextModel = b.nextModel ∧
    (a.solve b callOpts).backend.defaultEnv = b.defaultEnv := by
  obtain ⟨bF, hEE, hother, hcount, hids, hmids, hslots, hnE, hnM, hdE⟩ :=
    ensureEnv_managed_fresh_contention a b hman henv hwfE hvo hno hcap
  have hsolve : a.solve b callOpts =
      { backend := bF, adapter := a,
        result := Except.error
          (AdapterErr.resourceUnavailable "No Gurobi license available") } := by
    simp only [GurobiDirect.solve, hclosed, hcur]
    rw [if_neg Bool.false_ne_true, adapter_eta a hcur hclosed, hEE]
  rw [hsolve]
  exact ⟨rfl, rfl, hother, hcount, hids, hmids, hslots, hnE, hnM, hdE⟩

/-- A `solve` on a fresh managed adapter with acceptable options and a free
license slot succeeds: the owned environment starts carrying exactly the
constructor options, and the fresh model handle carries `OutputFlag 0`
followed by the merged options that are not already recorded on the
environment (spec 4.2; `test_param_set`). -/
theorem solve_fresh_managed_ok (a : GurobiDirect) (b : Backend) (callOpts : OptList)
    (hman : a.manage_env = true) (henv : a.env = none) (hcur : a.curModel = none)
    (hclosed : a.closed = false)
    (hwfE : b.wfEnvs) (hwfM : b.wfModels)
    (hvo : allValid a.options) (hno : noEnvOnly a.options)
    (hvc : allValid callOpts) (hnc : noEnvOnly callOpts)
    (hcap : countLiveEnvs b.envs < b.licenseSlots) :
    (a.solve b callOpts).result = Except.ok () ∧
    (a.solve b callOpts).adapter =
      { a with env := some b.nextEnv, curModel := some b.nextModel } ∧
    findEnvIn (a.solve b callOpts).backend.envs b.nextEnv =
      some { envId := b.nextEnv, started := true, closed := false,
             params := applyAll [] a.options } ∧
    findModelIn (a.solve b callOpts).backend.models b.nextModel =
      some { modelId := b.nextModel, envId := b.nextEnv, closed := false,
             params := applyAll []
               (("OutputFlag", GValue.int 0) ::
                 (mergeOpts a.options callOpts).filter
                   (settingNeeded (applyAll [] a.options))) } := by
  obtain ⟨b3, hEE, hfindE, hotherE, hmodels3, hnM3, hslots3, hnE3, hdE3, hids3⟩ :=
    ensureEnv_managed_fresh_ok a b hman henv hwfE hvo hno hcap
  have hCM := createModel_eq_ok b3 b.nextEnv
    { envId := b.nextEnv, started := true, closed := false,
      params := applyAll [] a.options }
    hfindE rfl rfl
  rw [hnM3] at hCM
  have hmfresh : ∀ x ∈ b3.models, ¬ x.modelId = b.nextModel := by
    intro x hx
    rw [hmodels3] at hx
    exact fun he => Nat.ne_of_lt (hwfM.1 x hx) he
  have hfindM : findModelIn (b3.models ++
      [{ modelId := b.nextModel, envId := b.nextEnv, closed := false, params := [] }])
      b.nextModel =
      some { modelId := b.nextModel, envId := b.nextEnv, closed := false, params := [] } := by
    rw [findModelIn_append, findModelIn_eq_none b3.models b.nextModel hmfresh]
    simp [findModelIn]
  have hvlist : allValid (("OutputFlag", GValue.int 0) ::
      (mergeOpts a.options callOpts).filter (settingNeeded (applyAll [] a.options))) := by
    intro p hp
    rcases List.mem_cons.mp hp with hp | hp
    · rw [hp]
      rfl
    · rcases mem_applyAll _ _ _ (List.mem_of_mem_filter hp) with hp' | hp'
      · exact hvo p hp'
      · exact hvc p hp'
  have hnlist : noEnvOnly (("OutputFlag", GValue.int 0) ::
      (mergeOpts a.options callOpts).filter (settingNeeded (applyAll [] a.options))) := by
    intro p hp
    rcases List.mem_cons.mp hp with hp | hp
    · rw [hp]
      rfl
    · rcases mem_applyAll _ _ _ (List.mem_of_mem_filter hp) with hp' | hp'
      · exact hno p hp'
      · exact hnc p hp'
  obtain ⟨b5, hrunM, hfindM5, hotherM5, hshape5, henvs5, hslots5, hnE5, hnM5, hdE5⟩ :=
    applyModelParams_ok
      (("OutputFlag", GValue.int 0) ::
        (mergeOpts a.options callOpts).filter (settingNeeded (applyAll [] a.options)))
      { b3 with
        models := b3.models ++
          [{ modelId := b.nextModel, envId := b.nextEnv, closed := false, params := [] }],
        nextModel := b.nextModel + 1,
        events := b3.events ++ [Event.modelCreate b.nextModel b.nextEnv] }
      b.nextModel
      { modelId := b.nextModel, envId := b.nextEnv, closed := false, params := [] }
      hfindM rfl hvlist hnlist
  have hsolve : a.solve b callOpts =
      { backend := b5,
        adapter := { a with env := some b.nextEnv, curModel := some b.nextModel },
        result := Except.ok () } := by
    simp only [GurobiDirect.solve, hclosed, hcur]
    rw [if_neg Bool.false_ne_true, adapter_eta a hcur hclosed, hEE]
    simp only [hCM, hfindE, hrunM]
    rw [hclosed]
  rw [hsolve]
  refine ⟨rfl, rfl, ?_, ?_⟩
  · rw [show b5.envs = b3.envs from henvs5]
    exact hfindE
  · exact hfindM5

theorem envSetParam_ok_inv (b : Backend) (e : Nat) (k : String) (v : GValue) (b1 : Backend)
    (h : b.envSetParam e k v = Except.ok b1) :
    b1.models = b.models ∧ b1.nextModel = b.nextModel := by
  simp only [Backend.envSetParam] at h
  split at h
  · simp at h
  · split at h
    · simp at h
    · split at h
      · simp at h
      · split at h
        · injection h with h
          subst h
          exact ⟨rfl, rfl⟩
        · simp at h

theorem startEnv_ok_inv (b : Backend) (e : Nat) (b1 : Backend)
    (h : b.startEnv e = Except.ok b1) :
    b1.models = b.models ∧ b1.nextModel = b.nextModel := by
  simp only [Backend.startEnv] at h
  split at h
  · simp at h
  · split at h
    · simp at h
    · split at h
      · injection h with h
        subst h
        exact ⟨rfl, rfl⟩
      · split at h
        · simp at h
        · split at h
          · simp at h
          · injection h with h
            subst h
            exact ⟨rfl, rfl⟩

theorem modelSetParam_ok_inv (b : Backend) (m : Nat) (k : String) (v : GValue) (b1 : Backend)
    (h : b.modelSetParam m k v = Except.ok b1) :
    b1.models.map (fun q => (q.modelId, q.closed)) =
      b.models.map (fun q => (q.modelId, q.closed)) ∧
    b1.models.map GModel.modelId = b.models.map GModel.modelId ∧
    b1.nextModel = b.nextModel := by
  simp only [Backend.modelSetParam] at h
  split at h
  · simp at h
  · split at h
    · simp at h
    · split at h
      · simp at h
      · split at h
        · injection h with h
          subst h
          exact ⟨map_updateModelIn _ _ _ _ (fun _ => rfl),
            map_updateModelIn _ _ _ _ (fun _ => rfl), rfl⟩
        · simp at h

theorem createModel_inv (b : Backend) (e : Nat) (b2 : Backend) (m : Nat)
    (h : b.createModel e = Except.ok (b2, m)) :
    b2.models = b.models ++
      [{ modelId := b.nextModel, envId := e, closed := false, params := [] }] ∧
    m = b.nextModel ∧ b2.nextModel = b.nextModel + 1 := by
  simp only [Backend.createModel] at h
  split at h
  · simp at h
  · split at h
    · injection h with h
      rw [Prod.ext_iff] at h
      obtain ⟨h1, h2⟩ := h
      subst h1
      exact ⟨rfl, h2.symm, rfl⟩
    · simp at h

theorem applyEnvParams_models (l : OptList) :
    ∀ (b : Backend) (e : Nat),
      (applyEnvParams e b l).1.models = b.models ∧
      (applyEnvParams e b l).1.nextModel = b.nextModel := by
  induction l with
  | nil => exact fun b e => ⟨rfl, rfl⟩
  | cons p rest ih =>
    intro b e
    simp only [applyEnvParams]
    cases heq : b.envSetParam e p.1 p.2 with
    | ok b1 =>
      obtain ⟨h1, h2⟩ := envSetParam_ok_inv b e p.1 p.2 b1 heq
      obtain ⟨h3, h4⟩ := ih b1 e
      exact ⟨h3.trans h1, h4.trans h2⟩
    | error err => exact ⟨rfl, rfl⟩

theorem applyModelParams_shape (l : OptList) :
    ∀ (b : Backend) (m : Nat),
      (applyModelParams m b l).1.models.map (fun q => (q.modelId, q.closed)) =
        b.models.map (fun q => (q.modelId, q.closed)) ∧
      (applyModelParams m b l).1.models.map GModel.modelId =
        b.models.map GModel.modelId ∧
      (applyModelParams m b l).1.nextModel = b.nextModel := by
  induction l with
  | nil => exact fun b m => ⟨rfl, rfl, rfl⟩
  | cons p rest ih =>
    intro b m
    simp only [applyModelParams]
    cases heq : b.modelSetParam m p.1 p.2 with
    | ok b1 =>
      obtain ⟨h1, h1b, h2⟩ := modelSetParam_ok_inv b m p.1 p.2 b1 heq
      obtain ⟨h3, h3b, h4⟩ := ih b1 m
      exact ⟨h3.trans h1, h3b.trans h1b, h4.trans h2⟩
    | error err => exact ⟨rfl, rfl, rfl⟩

theorem noLive_map_closeEnv (l : List GModel) (e : Nat) (h : noLiveModels l) :
    noLiveModels (l.map (fun x => if x.envId = e then { x with closed := true } else x)) := by
  intro md hmd
  rcases List.mem_map.mp hmd with ⟨x, hx, hxe⟩
  by_cases hxc : x.envId = e
  · rw [← hxe, if_pos hxc]
  · rw [← hxe, if_neg hxc]
    exact h x hx

theorem disposeEnv_noLive (b : Backend) (e : Nat) (h : noLiveModels b.models) :
    noLiveModels (b.disposeEnv e).models := by
  simp only [Backend.disposeEnv]
  split
  · exact h
  · split
    · exact h
    · exact noLive_map_closeEnv b.models e h

theorem disposeModel_facts (b : Backend) (m : Nat) :
    (b.disposeModel m).models.map GModel.modelId = b.models.map GModel.modelId ∧
    (b.disposeModel m).nextModel = b.nextModel ∧
    (b.disposeModel m).envs = b.envs ∧
    (b.disposeModel m).licenseSlots = b.licenseSlots ∧
    (b.disposeModel m).nextEnv = b.nextEnv ∧
    (b.disposeModel m).defaultEnv = b.defaultEnv := by
  simp only [Backend.disposeModel]
  split
  · exact ⟨rfl, rfl, rfl, rfl, rfl, rfl⟩
  · split
    · exact ⟨rfl, rfl, rfl, rfl, rfl, rfl⟩
    · exact ⟨(updateModel_close_facts _ _).2.2, rfl, rfl, rfl, rfl, rfl⟩

theorem countLiveModels_zero (l : List GModel) (h : noLiveModels l) :
    countLiveModels l = 0 := by
  induction l with
  | nil => rfl
  | cons x rest ih =>
    have h1 := h x (List.mem_cons_self x rest)
    have h2 := ih (fun md hmd => h md (List.mem_cons_of_mem _ hmd))
    simp [countLiveModels, h1, h2]

theorem countLiveEnvs_zero (l : List GEnv) (h : ∀ x ∈ l, x.live = false) :
    countLiveEnvs l = 0 := by
  induction l with
  | nil => rfl
  | cons x rest ih =>
    simp only [countLiveEnvs]
    rw [h x (List.mem_cons_self x rest)]
    simp only [Bool.false_eq_true, if_false]
    rw [ih (fun y hy => h y (List.mem_cons_of_mem _ hy))]

theorem countLiveModels_le_one (l : List GModel) (m : Nat)
    (hnd : (l.map GModel.modelId).Nodup)
    (hall : ∀ md ∈ l, md.closed = false → md.modelId = m) :
    countLiveModels l ≤ 1 := by
  induction l with
  | nil => simp [countLiveModels]
  | cons x rest ih =>
    rw [List.map_cons, List.nodup_cons] at hnd
    by_cases hx : x.closed = true
    · have hle := ih hnd.2 (fun md hmd hc => hall md (List.mem_cons_of_mem _ hmd) hc)
      simp only [countLiveModels, hx, if_pos rfl]
      simp
      omega
    · have hxm : x.modelId = m :=
        hall x (List.mem_cons_self x rest) (by simpa using hx)
      have hrest : countLiveModels rest = 0 := by
        refine countLiveModels_zero rest (fun md hmd => ?_)
        by_cases hc : md.closed = true
        · exact hc
        · exfalso
          have hmdm : md.modelId = m :=
            hall md (List.mem_cons_of_mem _ hmd) (by simpa using hc)
          exact hnd.1 (by rw [hxm, ← hmdm]; exact List.mem_map_of_mem GModel.modelId hmd)
      simp only [countLiveModels, hrest, hx]
      simp

theorem mem_of_map_eq {α β : Type} (g : α → β) :
    ∀ (l l' : List α), l'.map g = l.map g → ∀ x ∈ l', ∃ y ∈ l, g y = g x := by
  intro l l'
  induction l' generalizing l with
  | nil => intro _ x hx; simp at hx
  | cons x' rest' ih =>
    intro h x hx
    cases l with
    | nil => simp at h
    | cons y rest =>
      simp only [List.map_cons, List.cons.injEq] at h
      rcases List.mem_cons.mp hx with hx | hx
      · exact ⟨y, List.mem_cons_self y rest, by rw [hx, ← h.1]⟩
      · obtain ⟨y', hy', hgy'⟩ := ih rest h.2 x hx
        exact ⟨y', List.mem_cons_of_mem _ hy', hgy'⟩

theorem wfModels_snoc (b bF : Backend)
    (hids : bF.models.map GModel.modelId = b.models.map GModel.modelId ++ [b.nextModel])
    (hnM : bF.nextModel = b.nextModel + 1) (h : b.wfModels) : bF.wfModels := by
  constructor
  · intro x hx
    have hmem : x.modelId ∈ bF.models.map GModel.modelId := List.mem_map_of_mem _ hx
    rw [hids] at hmem
    rw [hnM]
    rcases List.mem_append.mp hmem with hm | hm
    · rcases List.mem_map.mp hm with ⟨y, hy, hxy⟩
      have := h.1 y hy
      rw [← hxy]
      omega
    · rw [List.mem_singleton] at hm
      omega
  · rw [hids]
    simp only [List.nodup_append, List.nodup_singleton]
    refine ⟨h.2, trivial, ?_⟩
    intro x hx hy
    rw [List.mem_singleton] at hy
    rcases List.mem_map.mp hx with ⟨z, hz, hzx⟩
    exact Nat.ne_of_lt (h.1 z hz) (by rw [hzx]; exact hy)

theorem wfEnvs_snoc (b bF : Backend)
    (hids : bF.envs.map GEnv.envId = b.envs.map GEnv.envId ++ [b.nextEnv])
    (hnE : bF.nextEnv = b.nextEnv + 1) (h : b.wfEnvs) : bF.wfEnvs := by
  constructor
  · intro x hx
    have hmem : x.envId ∈ bF.envs.map GEnv.envId := List.mem_map_of_mem _ hx
    rw [hids] at hmem
    rw [hnE]
    rcases List.mem_append.mp hmem with hm | hm
    · rcases List.mem_map.mp hm with ⟨y, hy, hxy⟩
      have := h.1 y hy
      rw [← hxy]
      omega
    · rw [List.mem_singleton] at hm
      omega
  · rw [hids]
    simp only [List.nodup_append, List.nodup_singleton]
    refine ⟨h.2, trivial, ?_⟩
    intro x hx hy
    rw [List.mem_singleton] at hy
    rcases List.mem_map.mp hx with ⟨z, hz, hzx⟩
    exact Nat.ne_of_lt (h.1 z hz) (by rw [hzx]; exact hy)

theorem disposeModel_noLive_of_cur (b : Backend) (m : Nat)
    (hnd : (b.models.map GModel.modelId).Nodup)
    (hall : ∀ md ∈ b.models, md.closed = false → md.modelId = m) :
    noLiveModels (b.disposeModel m).models := by
  simp only [Backend.disposeModel]
  split
  next heq =>
    intro md hmd
    by_cases hc : md.closed = true
    · exact hc
    · exfalso
      exact findModelIn_none_forall _ _ heq md hmd (hall md hmd (by simpa using hc))
  next md0 heq =>
    split
    next hcl =>
      intro md hmd
      by_cases hc : md.closed = true
      · exact hc
      · exfalso
        have hidm : md.modelId = m := hall md hmd (by simpa using hc)
        have hmem0 := findModelIn_mem _ _ _ heq
        have hmd0 : md = md0 :=
          List.inj_on_of_nodup_map hnd hmd hmem0.1 (by rw [hidm, hmem0.2])
        rw [hmd0] at hc
        exact hc hcl
    next hcl =>
      intro md hmd
      rcases mem_updateModelIn _ _ _ _ hmd with ⟨x, hx, hxe⟩
      by_cases hxm : x.modelId = m
      · rw [hxe, if_pos hxm]
      · rw [hxe, if_neg hxm]
        by_cases hc : x.closed = true
        · exact hc
        · exact absurd (hall x hx (by simpa using hc)) hxm

theorem ensureDefaultEnv_model_side (b : Backend) :
    (b.ensureDefaultEnv.1.models.map GModel.modelId = b.models.map GModel.modelId) ∧
    b.ensureDefaultEnv.1.nextModel = b.nextModel ∧
    (noLiveModels b.models → noLiveModels b.ensureDefaultEnv.1.models) := by
  simp only [Backend.ensureDefaultEnv, Backend.createEnv]
  split
  next e heq => exact ⟨rfl, rfl, fun h => h⟩
  next heq =>
    split
    next b2 heq2 =>
      obtain ⟨h1, h2⟩ := startEnv_ok_inv _ _ _ heq2
      exact ⟨congrArg (List.map GModel.modelId) h1, h2,
        fun h => by rw [show ({ b2 with defaultEnv := some b.nextEnv } : Backend).models
          = b.models from h1]; exact h⟩
    next err heq2 =>
      refine ⟨((disposeEnv_facts _ _).2.1), ((disposeEnv_facts _ _).2.2.2.2.1), ?_⟩
      intro h
      exact disposeEnv_noLive _ _ h

theorem ensureEnv_model_side (a : GurobiDirect) (b : Backend) :
    (a.ensureEnv b).1.models.map GModel.modelId = b.models.map GModel.modelId ∧
    (a.ensureEnv b).1.nextModel = b.nextModel ∧
    (noLiveModels b.models → noLiveModels (a.ensureEnv b).1.models) ∧
    (a.ensureEnv b).2.1.curModel = a.curModel := by
  simp only [GurobiDirect.ensureEnv, Backend.createEnv]
  split
  · split
    next e heq => exact ⟨rfl, rfl, fun h => h, rfl⟩
    next heq =>
      split
      next b2 err heq2 =>
        have hm := applyEnvParams_models a.options
          { b with
            envs := b.envs ++
              [{ envId := b.nextEnv, started := false, closed := false, params := [] }],
            nextEnv := b.nextEnv + 1,
            events := b.events ++ [Event.envCreate b.nextEnv] } b.nextEnv
        rw [heq2] at hm
        refine ⟨((disposeEnv_facts b2 _).2.1).trans
            (congrArg (List.map GModel.modelId) hm.1),
          ((disposeEnv_facts b2 _).2.2.2.2.1).trans hm.2, ?_, rfl⟩
        intro h
        refine disposeEnv_noLive _ _ ?_
        rw [show b2.models = b.models from hm.1]
        exact h
      next b2 heq2 =>
        have hm := applyEnvParams_models a.options
          { b with
            envs := b.envs ++
              [{ envId := b.nextEnv, started := false, closed := false, params := [] }],
            nextEnv := b.nextEnv + 1,
            events := b.events ++ [Event.envCreate b.nextEnv] } b.nextEnv
        rw [heq2] at hm
        split
        next b3 heq3 =>
          obtain ⟨h1, h2⟩ := startEnv_ok_inv _ _ _ heq3
          refine ⟨?_, ?_, ?_, rfl⟩
          · rw [show b3.models = b.models from h1.trans hm.1]
          · rw [show b3.nextModel = b.nextModel from h2.trans hm.2]
          · intro h
            rw [show b3.models = b.models from h1.trans hm.1]
            exact h
        next err heq3 =>
          refine ⟨((disposeEnv_facts b2 _).2.1).trans
              (congrArg (List.map GModel.modelId) hm.1),
            ((disposeEnv_facts b2 _).2.2.2.2.1).trans hm.2, ?_, rfl⟩
          intro h
          refine disposeEnv_noLive _ _ ?_
          rw [show b2.models = b.models from hm.1]
          exact h
  · split
    next b1 e heq =>
      have hd := ensureDefaultEnv_model_side b
      rw [heq] at hd
      exact ⟨hd.1, hd.2.1, hd.2.2, rfl⟩
    next b1 err heq =>
      have hd := ensureDefaultEnv_model_side b
      rw [heq] at hd
      exact ⟨hd.1, hd.2.1, hd.2.2, rfl⟩

theorem turnover_after_model_phase (b1 : Backend) (a2 : GurobiDirect) (b2 : Backend)
    (l : OptList) (m : Nat)
    (hwfM1 : b1.wfModels)
    (hids2 : b2.models.map GModel.modelId = b1.models.map GModel.modelId ++ [b1.nextModel])
    (hnM2 : b2.nextModel = b1.nextModel + 1)
    (hlive2 : ∀ md ∈ b2.models, md.closed = false → md.modelId = b1.nextModel)
    (hcur : a2.curModel = some b1.nextModel) :
    modelTurnoverInv (applyModelParams m b2 l).1 a2 := by
  obtain ⟨hshape, hids, hnext⟩ := applyModelParams_shape l b2 m
  constructor
  · exact wfModels_snoc b1 _ (hids.trans hids2) (hnext.trans hnM2) hwfM1
  · intro md hmd hc
    obtain ⟨y, hy, hgy⟩ :=
      mem_of_map_eq (fun q => (q.modelId, q.closed)) b2.models _ hshape md hmd
    have hyid : y.modelId = md.modelId := congrArg Prod.fst hgy
    have hycl : y.closed = md.closed := congrArg Prod.snd hgy
    have hid := hlive2 y hy (hycl.trans hc)
    rw [hcur, ← hyid, hid]

theorem turnover_error_state (b0 b1 : Backend) (a1 : GurobiDirect)
    (hwfM : b0.wfModels)
    (hids : b1.models.map GModel.modelId = b0.models.map GModel.modelId)
    (hnM : b1.nextModel = b0.nextModel)
    (hnoLive : noLiveModels b1.models) :
    modelTurnoverInv b1 a1 := by
  constructor
  · exact wfModels_of_eq b0 b1 hids hnM hwfM
  · intro md hmd hc
    exact absurd (hnoLive md hmd) (by rw [hc]; simp)

/-- One `solve` call preserves the model-turnover invariant, on every control
path (success, environment failure, model-parameter failure): the previous
model handle is released before a new one is created, so every live model
handle is the adapter's current one (spec 4.2, P4). -/
theorem solve_preserves_turnover (a : GurobiDirect) (b : Backend) (opts : OptList)
    (h : modelTurnoverInv b a) :
    modelTurnoverInv (a.solve b opts).backend (a.solve b opts).adapter := by
  simp only [GurobiDirect.solve]
  split
  · exact h
  next hclosed =>
    have hb0 : noLiveModels (match a.curModel with
          | some m => b.disposeModel m
          | none => b).models ∧
        (match a.curModel with
          | some m => b.disposeModel m
          | none => b).models.map GModel.modelId = b.models.map GModel.modelId ∧
        (match a.curModel with
          | some m => b.disposeModel m
          | none => b).nextModel = b.nextModel := by
      cases hcur : a.curModel with
      | some m =>
        refine ⟨disposeModel_noLive_of_cur b m h.1.2 ?_,
          (disposeModel_facts b m).1, (disposeModel_facts b m).2.1⟩
        intro md hmd hc
        have hsome := h.2 md hmd hc
        rw [hcur] at hsome
        injection hsome with hsome
        exact hsome.symm
      | none =>
        refine ⟨?_, rfl, rfl⟩
        intro md hmd
        by_cases hc : md.closed = true
        · exact hc
        · exact absurd (h.2 md hmd (by simpa using hc)) (by rw [hcur]; simp)
    split
    next b1 a1 err heq =>
      have hside := ensureEnv_model_side { a with curModel := none }
        (match a.curModel with
          | some m => b.disposeModel m
          | none => b)
      rw [heq] at hside
      exact turnover_error_state b b1 a1 h.1 (hside.1.trans hb0.2.1)
        (hside.2.1.trans hb0.2.2) (hside.2.2.1 hb0.1)
    next b1 a1 e heq =>
      have hside := ensureEnv_model_side { a with curModel := none }
        (match a.curModel with
          | some m => b.disposeModel m
          | none => b)
      rw [heq] at hside
      have hwfM1 : b1.wfModels :=
        wfModels_of_eq b b1 (hside.1.trans hb0.2.1) (hside.2.1.trans hb0.2.2) h.1
      have hnoLive1 : noLiveModels b1.models := hside.2.2.1 hb0.1
      split
      next err heq2 =>
        exact turnover_error_state b1 b1 a1 hwfM1 rfl rfl hnoLive1
      next b2 m heq2 =>
        obtain ⟨hm2, hm, hn2⟩ := createModel_inv b1 e b2 m heq2
        have hids2 : b2.models.map GModel.modelId =
            b1.models.map GModel.modelId ++ [b1.nextModel] := by
          rw [hm2]
          simp
        have hlive2 : ∀ md ∈ b2.models, md.closed = false → md.modelId = b1.nextModel := by
          intro md hmd hc
          rw [hm2] at hmd
          rcases List.mem_append.mp hmd with hmd | hmd
          · exact absurd (hnoLive1 md hmd) (by rw [hc]; simp)
          · rw [List.mem_singleton] at hmd
            rw [hmd]
        split
        next b3 err3 heq3 =>
          have := turnover_after_model_phase b1
            { a1 with curModel := some m } b2
            (("OutputFlag", GValue.int 0) ::
              List.filter
                (settingNeeded
                  (match a1.env with
                    | some eid =>
                      (match findEnvIn b2.envs eid with
                        | some env => env.params
                        | none => [])
                    | none => []))
                (mergeOpts a1.options opts))
            m hwfM1 hids2 hn2 hlive2 (by rw [hm])
          rw [heq3] at this
          exact this
        next b3 heq3 =>
          have := turnover_after_model_phase b1
            { a1 with curModel := some m } b2
            (("OutputFlag", GValue.int 0) ::
              List.filter
                (settingNeeded
                  (match a1.env with
                    | some eid =>
                      (match findEnvIn b2.envs eid with
                        | some env => env.params
                        | none => [])
                    | none => []))
                (mergeOpts a1.options opts))
            m hwfM1 hids2 hn2 hlive2 (by rw [hm])
          rw [heq3] at this
          exact this

theorem mem_keys_setKV_self (l : OptList) (k : String) (v : GValue) :
    k ∈ keysOf (setKV l k v) := by
  rw [keysOf_setKV]
  by_cases hmem : k ∈ keysOf l
  · rwa [if_pos hmem]
  · rw [if_neg hmem]
    simp

theorem mem_keys_setKV_of (l : OptList) (k k' : String) (v : GValue)
    (h : k' ∈ keysOf l) : k' ∈ keysOf (setKV l k v) := by
  rw [keysOf_setKV]
  by_cases hmem : k ∈ keysOf l
  · rwa [if_pos hmem]
  · rw [if_neg hmem]
    exact List.mem_append_left _ h

theorem mem_keys_applyAll_init (l : OptList) (k : String) :
    ∀ init : OptList, k ∈ keysOf init → k ∈ keysOf (applyAll init l) := by
  induction l with
  | nil => exact fun _ h => h
  | cons p rest ih => exact fun init h => ih _ (mem_keys_setKV_of _ _ _ _ h)

theorem mem_keys_applyAll (l : OptList) (k : String) :
    ∀ init : OptList, k ∈ keysOf l → k ∈ keysOf (applyAll init l) := by
  induction l with
  | nil =>
    intro _ h
    simp [keysOf] at h
  | cons p rest ih =>
    intro init h
    rw [keysOf_cons] at h
    rcases List.mem_cons.mp h with h | h
    · rw [h]
      exact mem_keys_applyAll_init rest p.1 _ (mem_keys_setKV_self init p.1 p.2)
    · exact ih _ h

theorem hasEnvOnly_of_mem_key (l : OptList) (k : String) (hk : k ∈ keysOf l)
    (he : isEnvOnly k = true) : hasEnvOnly l = true := by
  rcases List.mem_map.mp hk with ⟨q, hq, hqk⟩
  simp only [hasEnvOnly, List.any_eq_true]
  exact ⟨q, hq, by rw [hqk]; exact he⟩

theorem disposeEnv_find_self (b : Backend) (e : Nat) (env : GEnv)
    (hfind : findEnvIn b.envs e = some env) (hcl : env.closed = false) :
    findEnvIn (b.disposeEnv e).envs e = some { env with closed := true } := by
  simp only [Backend.disposeEnv, hfind]
  rw [if_neg (bnot_true_of_false hcl)]
  rw [(updateEnv_close_facts b.envs e).1, hfind]
  rfl

theorem createEnv_find_fresh (b : Backend) (hwf : b.wfEnvs) :
    findEnvIn
      (b.envs ++ [{ envId := b.nextEnv, started := false, closed := false, params := [] }])
      b.nextEnv =
      some { envId := b.nextEnv, started := false, closed := false, params := [] } := by
  have hfresh : ∀ x ∈ b.envs, ¬ x.envId = b.nextEnv :=
    fun x hx he => Nat.ne_of_lt (hwf.1 x hx) he
  rw [findEnvIn_append, findEnvIn_eq_none b.envs b.nextEnv hfresh]
  simp [findEnvIn]

/-- Effect of a fresh managed environment acquisition when a staged
connection parameter makes the start attempt a server connection: the error
comes from the attempted connection, not from the parameter application, and
the staged settings are visible on the (disposed, never started) handle. -/
theorem ensureEnv_managed_fresh_hostError (a : GurobiDirect) (b : Backend)
    (hman : a.manage_env = true) (henv : a.env = none)
    (hwf : b.wfEnvs)
    (hval : allValid a.options)
    (hhe : hasEnvOnly (applyAll [] a.options) = true) :
    ∃ bF : Backend,
      a.ensureEnv b =
        (bF, a, Except.error (AdapterErr.solveError "Could not resolve host")) ∧
      findEnvIn bF.envs b.nextEnv =
        some { envId := b.nextEnv, started := false, closed := true,
               params := applyAll [] a.options } := by
  obtain ⟨b2, hrun, hfind2, hother2, hcount2, hids2, hslots2, hmodels2, hnE2, hnM2, hdE2⟩ :=
    applyEnvParams_ok a.options
      { b with
        envs := b.envs ++
          [{ envId := b.nextEnv, started := false, closed := false, params := [] }],
        nextEnv := b.nextEnv + 1,
        events := b.events ++ [Event.envCreate b.nextEnv] }
      b.nextEnv
      { envId := b.nextEnv, started := false, closed := false, params := [] }
      (createEnv_find_fresh b hwf) rfl rfl hval
  have hstart := startEnv_hostError b2 b.nextEnv
    { envId := b.nextEnv, started := false, closed := false, params := applyAll [] a.options }
    hfind2 rfl rfl hhe
  refine ⟨b2.disposeEnv b.nextEnv, ?_, ?_⟩
  · simp only [GurobiDirect.ensureEnv, hman, if_pos rfl, henv, Backend.createEnv]
    rw [hrun]
    simp only [hstart]
    simp [wrapEnvErr, GurobiErr.message]
  · exact disposeEnv_find_self b2 b.nextEnv _ hfind2 rfl

theorem settingNeeded_nil (p : String × GValue) : settingNeeded [] p = true := by
  simp [settingNeeded, lookupKV]

theorem filter_settingNeeded_nil (l : OptList) : l.filter (settingNeeded []) = l := by
  induction l with
  | nil => rfl
  | cons p rest ih =>
    rw [List.filter_cons_of_pos (settingNeeded_nil p), ih]

theorem ensureDefaultEnv_fresh_ok (b : Backend) (hwf : b.wfEnvs) (hdef : b.defaultEnv = none)
    (hcap : countLiveEnvs b.envs < b.licenseSlots) :
    ∃ b2 : Backend, b.ensureDefaultEnv = (b2, Except.ok b.nextEnv) ∧
      findEnvIn b2.envs b.nextEnv =
        some { envId := b.nextEnv, started := true, closed := false, params := [] } ∧
      b2.models = b.models ∧ b2.nextModel = b.nextModel ∧
      b2.licenseSlots = b.licenseSlots := by
  have hc : countLiveEnvs
      (b.envs ++ [{ envId := b.nextEnv, started := false, closed := false, params := [] }]) <
      b.licenseSlots := by
    simpa [countLiveEnvs_append, countLiveEnvs, GEnv.live] using hcap
  have hstart := startEnv_eq_ok
    { b with
      envs := b.envs ++
        [{ envId := b.nextEnv, started := false, closed := false, params := [] }],
      nextEnv := b.nextEnv + 1,
      events := b.events ++ [Event.envCreate b.nextEnv] }
    b.nextEnv
    { envId := b.nextEnv, started := false, closed := false, params := [] }
    (createEnv_find_fresh b hwf) rfl rfl rfl hc
  refine ⟨(⟨b.licenseSlots,
      updateEnvIn
        (b.envs ++ [{ envId := b.nextEnv, started := false, closed := false, params := [] }])
        b.nextEnv (fun x => { x with started := true }),
      b.models, some b.nextEnv, b.nextEnv + 1, b.nextModel,
      (b.events ++ [Event.envCreate b.nextEnv]) ++ [Event.envStart b.nextEnv]⟩ : Backend),
    ?_, ?_, rfl, rfl, rfl⟩
  · rw [hdef] at hstart
    simp only [Backend.ensureDefaultEnv, hdef, Backend.createEnv, hstart]
  · change findEnvIn
      (updateEnvIn
        (b.envs ++ [{ envId := b.nextEnv, started := false, closed := false, params := [] }])
        b.nextEnv (fun x => { x with started := true }))
      b.nextEnv = _
    rw [(updateEnv_start_facts _ _).1, createEnv_find_fresh b hwf]
    rfl

theorem openEnv_ok (b : Backend) (hwf : b.wfEnvs)
    (hcap : countLiveEnvs b.envs < b.licenseSlots) :
    ∃ b' : Backend, b.openEnv = Except.ok (b', b.nextEnv) := by
  have hc : countLiveEnvs
      (b.envs ++ [{ envId := b.nextEnv, started := false, closed := false, params := [] }]) <
      b.licenseSlots := by
    simpa [countLiveEnvs_append, countLiveEnvs, GEnv.live] using hcap
  have hstart := startEnv_eq_ok
    { b with
      envs := b.envs ++
        [{ envId := b.nextEnv, started := false, closed := false, params := [] }],
      nextEnv := b.nextEnv + 1,
      events := b.events ++ [Event.envCreate b.nextEnv] }
    b.nextEnv
    { envId := b.nextEnv, started := false, closed := false, params := [] }
    (createEnv_find_fresh b hwf) rfl rfl rfl hc
  refine ⟨(⟨b.licenseSlots,
      updateEnvIn
        (b.envs ++ [{ envId := b.nextEnv, started := false, closed := false, params := [] }])
        b.nextEnv (fun x => { x with started := true }),
      b.models, b.defaultEnv, b.nextEnv + 1, b.nextModel,
      (b.events ++ [Event.envCreate b.nextEnv]) ++ [Event.envStart b.nextEnv]⟩ : Backend),
    ?_⟩
  simp only [Backend.openEnv, Backend.createEnv]
  simp only [hstart]

theorem disposeEnv_count_zero (b : Backend) (e : Nat)
    (hnd : (b.envs.map GEnv.envId).Nodup)
    (hall : ∀ x ∈ b.envs, x.live = true → x.envId = e) :
    countLiveEnvs (b.disposeEnv e).envs = 0 := by
  simp only [Backend.disposeEnv]
  split
  next heq =>
    refine countLiveEnvs_zero _ (fun x hx => ?_)
    by_cases hl : x.live = true
    · exact absurd (hall x hx hl) (findEnvIn_none_forall _ _ heq x hx)
    · simpa using hl
  next env0 heq =>
    split
    next hcl =>
      refine countLiveEnvs_zero _ (fun x hx => ?_)
      by_cases hl : x.live = true
      · exfalso
        have hmem0 := findEnvIn_mem _ _ _ heq
        have hx0 : x = env0 :=
          List.inj_on_of_nodup_map hnd hx hmem0.1 (by rw [hall x hx hl, hmem0.2])
        rw [hx0] at hl
        exact absurd hcl (by rw [live_closed_false env0 hl]; simp)
      · simpa using hl
    next hcl =>
      exact countLiveEnvs_close_of_all _ _ hall

theorem lookupKV_mergeOpts (ctor call : OptList) (hnd : (keysOf call).Nodup) (k : String) :
    lookupKV (mergeOpts ctor call) k =
      match lookupKV call k with
      | some v => some v
      | none => lookupKV ctor k := by
  cases hc : lookupKV call k with
  | some v => exact lookupKV_applyAll_of_some call k v hnd hc ctor
  | none => exact lookupKV_applyAll_of_none call k ctor hc

theorem wrapEnvErr_cases (g : GurobiErr) :
    (∃ m, wrapEnvErr g = AdapterErr.resourceUnavailable m) ∨
    (∃ m, wrapEnvErr g = AdapterErr.solveError m) := by
  cases g with
  | noLicense m => exact Or.inl ⟨m, rfl⟩
  | hostError m => exact Or.inr ⟨m, rfl⟩
  | unableToSet m => exact Or.inr ⟨m, rfl⟩
  | unableToModify m => exact Or.inr ⟨m, rfl⟩
  | invalidState m => exact Or.inr ⟨m, rfl⟩

theorem applyModelParams_envOnly (l : OptList) :
    ∀ (b : Backend) (m : Nat) (md : GModel),
      findModelIn b.models m = some md → md.closed = false →
      allValid l → (∃ p ∈ l, isEnvOnly p.1 = true) →
      ∃ (b' : Backend) (msg : String),
        applyModelParams m b l = (b', some (GurobiErr.unableToModify msg)) ∧
        ∃ md', findModelIn b'.models m = some md' ∧ md'.closed = false ∧
          (∀ k, isEnvOnly k = true → lookupKV md'.params k = lookupKV md.params k) := by
  induction l with
  | nil =>
    intro b m md _ _ _ hex
    simp at hex
  | cons p rest ih =>
    intro b m md hfind hcl hval hex
    by_cases hk : isEnvOnly p.1 = true
    · have hstep := modelSetParam_envOnly b m p.1 p.2 md hfind hcl hk
      refine ⟨b, "Unable to modify parameter " ++ p.1, ?_, md, hfind, hcl, fun _ _ => rfl⟩
      simp only [applyModelParams, hstep]
    · have hk' : isEnvOnly p.1 = false := by simpa using hk
      have hv : validValue p.1 p.2 = true := hval p (List.mem_cons_self _ _)
      have hstep := modelSetParam_eq_ok b m p.1 p.2 md hfind hcl hk' hv
      simp only [applyModelParams, hstep]
      have hfind1 : findModelIn
          (updateModelIn b.models m (fun x => { x with params := setKV x.params p.1 p.2})) m =
          some { md with params := setKV md.params p.1 p.2 } := by
        rw [(updateModel_params_facts b.models m p.1 p.2).1, hfind]
        rfl
      have hex' : ∃ q ∈ rest, isEnvOnly q.1 = true := by
        rcases hex with ⟨q, hq, hqe⟩
        rcases List.mem_cons.mp hq with h | h
        · exact absurd (h ▸ hqe) hk
        · exact ⟨q, h, hqe⟩
      obtain ⟨b', msg, hrun, md', hfind', hcl', hpres⟩ :=
        ih { b with
              models := updateModelIn b.models m
                (fun x => { x with params := setKV x.params p.1 p.2 }),
              events := b.events ++ [Event.modelSet m p.1 p.2] }
          m { md with params := setKV md.params p.1 p.2 } hfind1 hcl
          (fun q hq => hval q (List.mem_cons_of_mem _ hq)) hex'
      refine ⟨b', msg, hrun, md', hfind', hcl', ?_⟩
      intro k hke
      rw [hpres k hke]
      have hpk : ¬ p.1 = k := fun hpk => hk (by rw [hpk]; exact hke)
      rw [lookupKV_setKV, if_neg hpk]

theorem ensureEnv_error_wrapped (a : GurobiDirect) (b bE : Backend) (aE : GurobiDirect)
    (err : AdapterErr) (h : a.ensureEnv b = (bE, aE, Except.error err)) :
    (∃ m, err = AdapterErr.resourceUnavailable m) ∨
    (∃ m, err = AdapterErr.solveError m) := by
  simp only [GurobiDirect.ensureEnv, Backend.createEnv] at h
  split at h
  · split at h
    next e heq =>
      have h3 := congrArg (fun t => t.2.2) h
      simp at h3
    next heq =>
      split at h
      next b2 err2 heq2 =>
        have h3 := congrArg (fun t => t.2.2) h
        simp only at h3
        injection h3 with h3
        rw [← h3]
        exact wrapEnvErr_cases err2
      next b2 heq2 =>
        split at h
        next b3 heq3 =>
          have h3 := congrArg (fun t => t.2.2) h
          simp at h3
        next err3 heq3 =>
          have h3 := congrArg (fun t => t.2.2) h
          simp only at h3
          injection h3 with h3
          rw [← h3]
          exact wrapEnvErr_cases err3
  · split at h
    next b1 e heq =>
      have h3 := congrArg (fun t => t.2.2) h
      simp at h3
    next b1 err1 heq =>
      have h3 := congrArg (fun t => t.2.2) h
      simp only at h3
      injection h3 with h3
      rw [← h3]
      exact wrapEnvErr_cases err1

theorem turnover_le_one (b : Backend) (a : GurobiDirect) (h : modelTurnoverInv b a) :
    countLiveModels b.models ≤ 1 := by
  cases hcur : a.curModel with
  | some m =>
    refine countLiveModels_le_one b.models m h.1.2 (fun md hmd hc => ?_)
    have hsome := h.2 md hmd hc
    rw [hcur] at hsome
    injection hsome with hsome
    exact hsome.symm
  | none =>
    have hz : countLiveModels b.models = 0 := by
      refine countLiveModels_zero b.models (fun md hmd => ?_)
      by_cases hc : md.closed = true
      · exact hc
      · exact absurd (h.2 md hmd (by simpa using hc)) (by rw [hcur]; simp)
    omega

/-- The recorded environment and model settings after a successful fresh
managed solve: the environment carries exactly the constructor options, the
model carries `OutputFlag 0` followed by the merged options that were not
already recorded on the environment. -/
theorem solve_recorded_params (a : GurobiDirect) (b : Backend) (callOpts : OptList)
    (hman : a.manage_env = true) (henv : a.env = none) (hcur : a.curModel = none)
    (hclosed : a.closed = false)
    (hwfE : b.wfEnvs) (hwfM : b.wfModels)
    (hvo : allValid a.options) (hno : noEnvOnly a.options)
    (hvc : allValid callOpts) (hnc : noEnvOnly callOpts)
    (hcap : countLiveEnvs b.envs < b.licenseSlots) :
    recordedEnvParams (a.solve b callOpts) = applyAll [] a.options ∧
    recordedModelParams (a.solve b callOpts) =
      applyAll [] (("OutputFlag", GValue.int 0) ::
        (mergeOpts a.options callOpts).filter
          (settingNeeded (applyAll [] a.options))) := by
  obtain ⟨hres, hadp, hfE, hfM⟩ :=
    solve_fresh_managed_ok a b callOpts hman henv hcur hclosed hwfE hwfM hvo hno hvc hnc hcap
  constructor
  · simp only [recordedEnvParams, hadp, hfE]
  · simp only [recordedModelParams, hadp, hfM]

/-- Routing of a merged setting with a managed environment: the pair is
either already recorded identically on the environment (and then absent from
the model recording) or recorded on the model. -/
theorem solve_setting_routed (a : GurobiDirect) (b : Backend) (callOpts : OptList)
    (hman : a.manage_env = true) (henv : a.env = none) (hcur : a.curModel = none)
    (hclosed : a.closed = false)
    (hwfE : b.wfEnvs) (hwfM : b.wfModels)
    (hvo : allValid a.options) (hno : noEnvOnly a.options)
    (hvc : allValid callOpts) (hnc : noEnvOnly callOpts)
    (hcap : countLiveEnvs b.envs < b.licenseSlots)
    (hndo : (keysOf a.options).Nodup) (hndc : (keysOf callOpts).Nodup)
    (k : String) (v : GValue) (hkOF : ¬ k = "OutputFlag")
    (hm : lookupKV (mergeOpts a.options callOpts) k = some v) :
    (lookupKV (recordedEnvParams (a.solve b callOpts)) k = some v ∧
      lookupKV (recordedModelParams (a.solve b callOpts)) k = none) ∨
    (¬ lookupKV (recordedEnvParams (a.solve b callOpts)) k = some v ∧
      lookupKV (recordedModelParams (a.solve b callOpts)) k = some v) := by
  obtain ⟨hrE, hrM⟩ := solve_recorded_params a b callOpts hman henv hcur hclosed hwfE hwfM
    hvo hno hvc hnc hcap
  rw [hrE, hrM]
  have hndm : (keysOf (mergeOpts a.options callOpts)).Nodup :=
    nodup_keysOf_applyAll callOpts a.options hndo
  rw [show applyAll [] (("OutputFlag", GValue.int 0) ::
      (mergeOpts a.options callOpts).filter (settingNeeded (applyAll [] a.options))) =
      applyAll [("OutputFlag", GValue.int 0)]
        ((mergeOpts a.options callOpts).filter (settingNeeded (applyAll [] a.options)))
    from rfl]
  by_cases hOn : lookupKV (applyAll [] a.options) k = some v
  · left
    refine ⟨hOn, ?_⟩
    have hsn : settingNeeded (applyAll [] a.options) (k, v) = false := by
      simp [settingNeeded, hOn]
    have hflt : lookupKV ((mergeOpts a.options callOpts).filter
        (settingNeeded (applyAll [] a.options))) k = none := by
      rw [lookupKV_filter_some _ _ _ v hndm hm, hsn]
      simp
    rw [lookupKV_applyAll_of_none _ _ _ hflt]
    simp only [lookupKV]
    rw [if_neg (fun hof => hkOF hof.symm)]
  · right
    refine ⟨hOn, ?_⟩
    have hsn : settingNeeded (applyAll [] a.options) (k, v) = true := by
      simp [settingNeeded, hOn]
    have hflt : lookupKV ((mergeOpts a.options callOpts).filter
        (settingNeeded (applyAll [] a.options))) k = some v := by
      rw [lookupKV_filter_some _ _ _ v hndm hm, hsn]
      simp
    have hndf : (keysOf ((mergeOpts a.options callOpts).filter
        (settingNeeded (applyAll [] a.options)))).Nodup := by
      simp only [keysOf] at hndm
      simp only [keysOf]
      exact List.Nodup.sublist (List.Sublist.map _ (List.filter_sublist _)) hndm
    exact lookupKV_applyAll_of_some _ _ _ hndf hflt _

/-- A name absent from the merged options is recorded on neither the
environment nor the model. -/
theorem solve_setting_absent (a : GurobiDirect) (b : Backend) (callOpts : OptList)
    (hman : a.manage_env = true) (henv : a.env = none) (hcur : a.curModel = none)
    (hclosed : a.closed = false)
    (hwfE : b.wfEnvs) (hwfM : b.wfModels)
    (hvo : allValid a.options) (hno : noEnvOnly a.options)
    (hvc : allValid callOpts) (hnc : noEnvOnly callOpts)
    (hcap : countLiveEnvs b.envs < b.licenseSlots)
    (hndc : (keysOf callOpts).Nodup)
    (k : String) (hkOF : ¬ k = "OutputFlag")
    (hm : lookupKV (mergeOpts a.options callOpts) k = none) :
    lookupKV (recordedEnvParams (a.solve b callOpts)) k = none ∧
    lookupKV (recordedModelParams (a.solve b callOpts)) k = none := by
  obtain ⟨hrE, hrM⟩ := solve_recorded_params a b callOpts hman henv hcur hclosed hwfE hwfM
    hvo hno hvc hnc hcap
  rw [hrE, hrM]
  have hcall : lookupKV callOpts k = none := by
    cases hc : lookupKV callOpts k with
    | none => rfl
    | some w =>
      have hw := lookupKV_applyAll_of_some callOpts k w hndc hc a.options
      simp only [mergeOpts] at hm
      rw [hw] at hm
      exact absurd hm (by simp)
  have hctor : lookupKV a.options k = none := by
    have h2 := lookupKV_applyAll_of_none callOpts k a.options hcall
    simp only [mergeOpts] at hm
    rw [h2] at hm
    exact hm
  constructor
  · rw [lookupKV_applyAll_of_none a.options k [] hctor]
    rfl
  · rw [show applyAll [] (("OutputFlag", GValue.int 0) ::
        (mergeOpts a.options callOpts).filter (settingNeeded (applyAll [] a.options))) =
        applyAll [("OutputFlag", GValue.int 0)]
          ((mergeOpts a.options callOpts).filter (settingNeeded (applyAll [] a.options)))
      from rfl]
    have hflt := lookupKV_filter_none (mergeOpts a.options callOpts)
      (settingNeeded (applyAll [] a.options)) k hm
    rw [lookupKV_applyAll_of_none _ _ _ hflt]
    simp only [lookupKV]
    rw [if_neg (fun hof => hkOF hof.symm)]

theorem disposeEnv_noop_absent (b : Backend) (e : Nat)
    (hf : findEnvIn b.envs e = none) : b.disposeEnv e = b := by
  simp only [Backend.disposeEnv, hf]

theorem disposeEnv_noop_closed (b : Backend) (e : Nat) (env : GEnv)
    (hf : findEnvIn b.envs e = some env) (hcl : env.closed = true) :
    b.disposeEnv e = b := by
  simp only [Backend.disposeEnv, hf]
  rw [if_pos hcl]

/-- After disposing the only live environment, a fresh exclusive acquisition
succeeds. -/
theorem openEnv_after_free (b1 : Backend) (e : Nat)
    (hwf1 : b1.wfEnvs)
    (hall1 : ∀ x ∈ b1.envs, x.live = true → x.envId = e)
    (hslots : 1 ≤ b1.licenseSlots) :
    ∃ b' : Backend, (b1.disposeEnv e).openEnv =
      Except.ok (b', (b1.disposeEnv e).nextEnv) := by
  have hcount := disposeEnv_count_zero b1 e hwf1.2 hall1
  have hwf2 : (b1.disposeEnv e).wfEnvs :=
    wfEnvs_of_eq b1 _ (disposeEnv_facts _ _).1 (disposeEnv_facts _ _).2.2.2.1 hwf1
  have hcap : countLiveEnvs (b1.disposeEnv e).envs < (b1.disposeEnv e).licenseSlots := by
    rw [hcount, (disposeEnv_facts _ _).2.2.1]
    omega
  exact openEnv_ok _ hwf2 hcap

/-- On a backend with no live environment, a fresh exclusive acquisition
succeeds. -/
theorem openEnv_of_nolive (b1 : Backend)
    (hwf1 : b1.wfEnvs)
    (hall1 : ∀ x ∈ b1.envs, x.live = false)
    (hslots : 1 ≤ b1.licenseSlots) :
    ∃ b' : Backend, b1.openEnv = Except.ok (b', b1.nextEnv) := by
  refine openEnv_ok b1 hwf1 ?_
  rw [countLiveEnvs_zero b1.envs hall1]
  omega

/-- Releasing an adapter whose environment is the only live one deterministically
frees the license slot: a fresh exclusive acquisition succeeds right after
`close`. -/
theorem close_frees_license (a : GurobiDirect) (b : Backend)
    (hman : a.manage_env = true) (hwf : b.wfEnvs)
    (hall : ∀ env ∈ b.envs, env.live = true → some env.envId = a.env)
    (hslots : 1 ≤ b.licenseSlots) :
    ∃ b' : Backend, ((a.close b).1).openEnv = Except.ok (b', (a.close b).1.nextEnv) := by
  cases hcm : a.curModel with
  | some m =>
    have hfacts := disposeModel_facts b m
    have hwf1 : (b.disposeModel m).wfEnvs :=
      wfEnvs_of_eq b _ (congrArg (List.map GEnv.envId) hfacts.2.2.1) hfacts.2.2.2.2.1 hwf
    cases henv : a.env with
    | some e =>
      have hfst : (a.close b).1 = (b.disposeModel m).disposeEnv e := by
        simp [GurobiDirect.close, hman, henv, hcm]
      rw [hfst]
      refine openEnv_after_free (b.disposeModel m) e hwf1 ?_ ?_
      · rw [hfacts.2.2.1]
        intro x hx hl
        have hs := hall x hx hl
        rw [henv] at hs
        injection hs with hs
      · rw [hfacts.2.2.2.1]
        exact hslots
    | none =>
      have hfst : (a.close b).1 = b.disposeModel m := by
        simp [GurobiDirect.close, hman, henv, hcm]
      rw [hfst]
      refine openEnv_of_nolive (b.disposeModel m) hwf1 ?_ ?_
      · rw [hfacts.2.2.1]
        intro x hx
        by_cases hl : x.live = true
        · exact absurd (hall x hx hl) (by rw [henv]; simp)
        · simpa using hl
      · rw [hfacts.2.2.2.1]
        exact hslots
  | none =>
    cases henv : a.env with
    | some e =>
      have hfst : (a.close b).1 = b.disposeEnv e := by
        simp [GurobiDirect.close, hman, henv, hcm]
      rw [hfst]
      refine openEnv_after_free b e hwf ?_ hslots
      intro x hx hl
      have hs := hall x hx hl
      rw [henv] at hs
      injection hs with hs
    | none =>
      have hfst : (a.close b).1 = b := by
        simp [GurobiDirect.close, hman, henv, hcm]
      rw [hfst]
      refine openEnv_of_nolive b hwf ?_ hslots
      intro x hx
      by_cases hl : x.live = true
      · exact absurd (hall x hx hl) (by rw [henv]; simp)
      · simpa using hl

/-- C1: when an exclusive environment acquisition through `solve` with
`manage_env` fails because another holder `e` currently holds the license,
the failure surfaces as the retryable `resourceUnavailable` error, the
adapter is returned exactly as it was (no residual state, no cached negative
result), and once the contending holder is released the same solve on the
same adapter instance succeeds. -/
theorem C1_contention_retry (a : GurobiDirect) (b : Backend) (callOpts : OptList)
    (e : Nat) (env : GEnv)
    (hman : a.manage_env = true) (henv : a.env = none) (hcur : a.curModel = none)
    (hclosed : a.closed = false)
    (hwfE : b.wfEnvs) (hwfM : b.wfModels)
    (hvo : allValid a.options) (hno : noEnvOnly a.options)
    (hvc : allValid callOpts) (hnc : noEnvOnly callOpts)
    (hcap : countLiveEnvs b.envs = b.licenseSlots)
    (hcontend : findEnvIn b.envs e = some env) (hlive : env.live = true) :
    (a.solve b callOpts).result =
      Except.error (AdapterErr.resourceUnavailable "No Gurobi license available") ∧
    (a.solve b callOpts).adapter = a ∧
    ((a.solve b callOpts).adapter.solve
        ((a.solve b callOpts).backend.disposeEnv e) callOpts).result = Except.ok () := by
  obtain ⟨hres, hadp, hother, hcount, hids, hmids, hslots, hnE, hnM, hdE⟩ :=
    solve_fresh_managed_contention a b callOpts hman henv hcur hclosed hwfE hvo hno
      (le_of_eq hcap.symm)
  refine ⟨hres, hadp, ?_⟩
  rw [hadp]
  have hmem := findEnvIn_mem b.envs e env hcontend
  have hene : ¬ e = b.nextEnv := by
    have hlt := hwfE.1 env hmem.1
    rw [hmem.2] at hlt
    omega
  have hfindF : findEnvIn (a.solve b callOpts).backend.envs e = some env := by
    rw [hother e hene]
    exact hcontend
  have hwfEF : (a.solve b callOpts).backend.wfEnvs :=
    wfEnvs_snoc b _ hids hnE hwfE
  have hwfMF : (a.solve b callOpts).backend.wfModels :=
    wfModels_of_eq b _ hmids hnM hwfM
  have hdc := disposeEnv_countLive_dec (a.solve b callOpts).backend e env hwfEF.2 hfindF hlive
  have hcap2 : countLiveEnvs ((a.solve b callOpts).backend.disposeEnv e).envs <
      ((a.solve b callOpts).backend.disposeEnv e).licenseSlots := by
    rw [(disposeEnv_facts _ _).2.2.1, hslots]
    omega
  have hwfE2 : ((a.solve b callOpts).backend.disposeEnv e).wfEnvs :=
    wfEnvs_of_eq _ _ (disposeEnv_facts _ _).1 (disposeEnv_facts _ _).2.2.2.1 hwfEF
  have hwfM2 : ((a.solve b callOpts).backend.disposeEnv e).wfModels :=
    wfModels_of_eq _ _ (disposeEnv_facts _ _).2.1 (disposeEnv_facts _ _).2.2.2.2.1 hwfMF
  exact (solve_fresh_managed_ok a _ callOpts hman henv hcur hclosed hwfE2 hwfM2
    hvo hno hvc hnc hcap2).1

/-- Witness for C1 at the `test_persisted_license_failure` scenario: the
single-use license is held by environment 0 of `heldBackend`. -/
theorem C1_contention_retry_witness :
    ((GurobiDirect.new true []).solve heldBackend []).result =
      Except.error (AdapterErr.resourceUnavailable "No Gurobi license available") ∧
    ((GurobiDirect.new true []).solve heldBackend []).adapter = GurobiDirect.new true [] ∧
    (((GurobiDirect.new true []).solve heldBackend []).adapter.solve
        ((((GurobiDirect.new true []).solve heldBackend []).backend).disposeEnv 0)
        []).result = Except.ok () :=
  C1_contention_retry (GurobiDirect.new true []) heldBackend [] 0
    { envId := 0, started := true, closed := false, params := [] }
    rfl rfl rfl rfl (by decide) (by decide) (by decide) (by decide) (by decide) (by decide)
    (by decide) (by decide) (by decide)

/-- C2 (counterexample): a backend failure while applying a solve-time
parameter to the model handle surfaces as the backend-native error
(`gurobipy.GurobiError`, as `test_param_changes` expects), not as the uniform
wrapped solve error the specification promises for every parameter-application
failure. -/
theorem C2_counterexample :
    paramLeakOut.result =
      Except.error (AdapterErr.gurobiError
        (GurobiErr.unableToSet "Unable to set parameter Method")) ∧
    ¬ ∃ m, paramLeakOut.result = Except.error (AdapterErr.solveError m) := by
  refine ⟨rfl, ?_⟩
  rintro ⟨m, hm⟩
  rw [show paramLeakOut.result = Except.error (AdapterErr.gurobiError
      (GurobiErr.unableToSet "Unable to set parameter Method")) from rfl] at hm
  simp at hm

/-- C2 (amended): the uniform wrapping holds only at the environment phase —
every `ensureEnv` failure is either the distinct retryable
`resourceUnavailable` or a wrapped `solveError`, and contention in particular
surfaces as `resourceUnavailable`; a model-phase parameter failure, by
contrast, leaks the backend-native error (as the test suite pins). -/
theorem C2_amended_error_boundary :
    (∀ (a : GurobiDirect) (b bE : Backend) (aE : GurobiDirect) (err : AdapterErr),
        a.ensureEnv b = (bE, aE, Except.error err) →
        (∃ m, err = AdapterErr.resourceUnavailable m) ∨
        (∃ m, err = AdapterErr.solveError m)) ∧
    (∀ (a : GurobiDirect) (b : Backend) (callOpts : OptList),
        a.manage_env = true → a.env = none → a.curModel = none → a.closed = false →
        b.wfEnvs → allValid a.options → noEnvOnly a.options →
        b.licenseSlots ≤ countLiveEnvs b.envs →
        (a.solve b callOpts).result =
          Except.error (AdapterErr.resourceUnavailable "No Gurobi license available")) ∧
    paramLeakOut.result =
      Except.error (AdapterErr.gurobiError
        (GurobiErr.unableToSet "Unable to set parameter Method")) := by
  refine ⟨ensureEnv_error_wrapped, ?_, rfl⟩
  intro a b callOpts hman henv hcur hclosed hwfE hvo hno hcap
  exact (solve_fresh_managed_contention a b callOpts hman henv hcur hclosed hwfE hvo hno hcap).1

/-- Witness for C2 (amended): the contention scenario of
`test_persisted_license_failure` instantiates both the environment-phase
boundary and the distinct contention surface. -/
theorem C2_amended_error_boundary_witness :
    ((∃ m, AdapterErr.resourceUnavailable "No Gurobi license available" =
        AdapterErr.resourceUnavailable m) ∨
      (∃ m, AdapterErr.resourceUnavailable "No Gurobi license available" =
        AdapterErr.solveError m)) ∧
    ((GurobiDirect.new true []).solve heldBackend []).result =
      Except.error (AdapterErr.resourceUnavailable "No Gurobi license available") :=
  ⟨C2_amended_error_boundary.1 (GurobiDirect.new true []) heldBackend
      (⟨1, [⟨0, true, false, []⟩, ⟨1, false, true, []⟩], [], none, 2, 0,
        [Event.envCreate 0, Event.envStart 0, Event.envCreate 1,
          Event.envDispose 1]⟩ : Backend)
      (GurobiDirect.new true [])
      (AdapterErr.resourceUnavailable "No Gurobi license available") rfl,
    C2_amended_error_boundary.2.1 (GurobiDirect.new true []) heldBackend [] rfl rfl rfl rfl
      (by decide) (by decide) (by decide) (by decide)⟩

/-- C3 (counterexample): in the `test_param_set` scenario the name `MIPFocus`
is recorded on both the environment (constructor value 1) and the model
(call-time value 2), so a setting name is not applied to exactly one of the
two; the classification is by name/value pair, not by name, and `Method`
lands on the environment although it is not an environment-only setting. -/
theorem C3_counterexample :
    paramSetOut.result = Except.ok () ∧
    lookupKV (recordedEnvParams paramSetOut) "MIPFocus" = some (GValue.int 1) ∧
    lookupKV (recordedModelParams paramSetOut) "MIPFocus" = some (GValue.int 2) ∧
    isEnvOnly "Method" = false ∧
    lookupKV (recordedEnvParams paramSetOut) "Method" = some (GValue.int 2) ∧
    lookupKV (recordedModelParams paramSetOut) "Method" = none :=
  ⟨rfl, rfl, rfl, rfl, rfl, rfl⟩

/-- C3 (amended): what is applied exactly once is the name/value pair, and
with a managed environment the split is environment-first: a merged pair
already recorded identically on the owned environment is not applied to the
model, and every other merged pair is recorded on the model — no pair is
dropped. -/
theorem C3_amended_setting_routed (a : GurobiDirect) (b : Backend) (callOpts : OptList)
    (hman : a.manage_env = true) (henv : a.env = none) (hcur : a.curModel = none)
    (hclosed : a.closed = false)
    (hwfE : b.wfEnvs) (hwfM : b.wfModels)
    (hvo : allValid a.options) (hno : noEnvOnly a.options)
    (hvc : allValid callOpts) (hnc : noEnvOnly callOpts)
    (hcap : countLiveEnvs b.envs < b.licenseSlots)
    (hndo : (keysOf a.options).Nodup) (hndc : (keysOf callOpts).Nodup)
    (k : String) (v : GValue) (hkOF : ¬ k = "OutputFlag")
    (hm : lookupKV (mergeOpts a.options callOpts) k = some v) :
    (lookupKV (recordedEnvParams (a.solve b callOpts)) k = some v ∧
      lookupKV (recordedModelParams (a.solve b callOpts)) k = none) ∨
    (¬ lookupKV (recordedEnvParams (a.solve b callOpts)) k = some v ∧
      lookupKV (recordedModelParams (a.solve b callOpts)) k = some v) :=
  solve_setting_routed a b callOpts hman henv hcur hclosed hwfE hwfM hvo hno hvc hnc hcap
    hndo hndc k v hkOF hm

/-- Witness for C3 (amended) at the `test_param_set` scenario with the
call-overridden pair `MIPFocus 2`. -/
theorem C3_amended_setting_routed_witness :
    (lookupKV (recordedEnvParams paramSetOut) "MIPFocus" = some (GValue.int 2) ∧
      lookupKV (recordedModelParams paramSetOut) "MIPFocus" = none) ∨
    (¬ lookupKV (recordedEnvParams paramSetOut) "MIPFocus" = some (GValue.int 2) ∧
      lookupKV (recordedModelParams paramSetOut) "MIPFocus" = some (GValue.int 2)) :=
  C3_amended_setting_routed
    (GurobiDirect.new true [("Method", GValue.int 2), ("MIPFocus", GValue.int 1)])
    (Backend.init 1) [("MIPFocus", GValue.int 2)] rfl rfl rfl rfl (by decide) (by decide)
    (by decide) (by decide) (by decide) (by decide) (by decide) (by decide) (by decide)
    "MIPFocus" (GValue.int 2) (by decide) (by decide)

/-- C4: across any sequence of `solve` calls on one adapter, the
model-turnover invariant is preserved — every live model handle is the
adapter's current one — so at most one model handle is live at any time and
all earlier ones have been released. -/
theorem C4_model_turnover (a : GurobiDirect) (b : Backend) (optss : List OptList)
    (h : modelTurnoverInv b a) :
    modelTurnoverInv (solveSeq a b optss).1 (solveSeq a b optss).2 ∧
    countLiveModels (solveSeq a b optss).1.models ≤ 1 := by
  induction optss generalizing a b with
  | nil => exact ⟨h, turnover_le_one b a h⟩
  | cons opts rest ih =>
    simp only [solveSeq]
    exact ih (a.solve b opts).adapter (a.solve b opts).backend
      (solve_preserves_turnover a b opts h)

/-- Witness for C4: two sequential solves on a fresh managed adapter
(the `test_multiple_models_leaky` scenario). -/
theorem C4_model_turnover_witness :
    modelTurnoverInv (solveSeq (GurobiDirect.new true []) (Backend.init 1) [[], []]).1
      (solveSeq (GurobiDirect.new true []) (Backend.init 1) [[], []]).2 ∧
    countLiveModels
      (solveSeq (GurobiDirect.new true []) (Backend.init 1) [[], []]).1.models ≤ 1 :=
  C4_model_turnover (GurobiDirect.new true []) (Backend.init 1) [[], []] (by decide)

/-- C5: releasing the environment deterministically frees the license slot —
after an explicit `close()` on an adapter owning the only live environment,
and likewise after a scoped-acquisition block exits (whatever the body's
outcome, success or error), a new exclusive acquisition succeeds
immediately. -/
theorem C5_release_frees_resource :
    (∀ (a : GurobiDirect) (b : Backend),
      a.manage_env = true → b.wfEnvs →
      (∀ env ∈ b.envs, env.live = true → some env.envId = a.env) →
      1 ≤ b.licenseSlots →
      ∃ b' : Backend,
        ((a.close b).1).openEnv = Except.ok (b', (a.close b).1.nextEnv)) ∧
    (∀ (manage : Bool) (opts : OptList) (b : Backend)
        (body : Backend → GurobiDirect → Backend × GurobiDirect × Except AdapterErr Unit),
      (body b (GurobiDirect.new manage opts)).2.1.manage_env = true →
      (body b (GurobiDirect.new manage opts)).1.wfEnvs →
      (∀ env ∈ (body b (GurobiDirect.new manage opts)).1.envs, env.live = true →
        some env.envId = (body b (GurobiDirect.new manage opts)).2.1.env) →
      1 ≤ (body b (GurobiDirect.new manage opts)).1.licenseSlots →
      ∃ b' : Backend,
        ((withGurobiDirect manage opts b body).1).openEnv =
          Except.ok (b', (withGurobiDirect manage opts b body).1.nextEnv)) := by
  refine ⟨close_frees_license, ?_⟩
  intro manage opts b body h1 h2 h3 h4
  exact close_frees_license (body b (GurobiDirect.new manage opts)).2.1
    (body b (GurobiDirect.new manage opts)).1 h1 h2 h3 h4

/-- Witness for C5: the `test_close` scenario (one solve, then `close`, then
`gp.Env()`), and the `test_context` scenario (the same solve inside a scoped
acquisition). -/
theorem C5_release_frees_resource_witness :
    (∃ b' : Backend,
      ((singleSolveOut.adapter.close singleSolveOut.backend).1).openEnv =
        Except.ok (b', (singleSolveOut.adapter.close singleSolveOut.backend).1.nextEnv)) ∧
    (∃ b' : Backend,
      ((withGurobiDirect true [] (Backend.init 1) demoBody).1).openEnv =
        Except.ok (b', (withGurobiDirect true [] (Backend.init 1) demoBody).1.nextEnv)) :=
  ⟨C5_release_frees_resource.1 singleSolveOut.adapter singleSolveOut.backend (by decide)
      (by decide) (by decide) (by decide),
    C5_release_frees_resource.2 true [] (Backend.init 1) demoBody (by decide) (by decide)
      (by decide) (by decide)⟩

/-- C6: an environment-only constructor setting of a managed adapter is
staged on the owned environment before it is started — the eventual solve
failure is the start's connection attempt ("Could not resolve host") and the
disposed handle still carries the staged settings, never started — while
applying an environment-only setting to an already-started environment fails
with the invalid-state error. -/
theorem C6_env_settings_before_start :
    (∀ (a : GurobiDirect) (b : Backend) (callOpts : OptList) (k : String) (v : GValue),
      a.manage_env = true → a.env = none → a.curModel = none → a.closed = false →
      b.wfEnvs → allValid a.options → (k, v) ∈ a.options → isEnvOnly k = true →
      (a.solve b callOpts).result =
        Except.error (AdapterErr.solveError "Could not resolve host") ∧
      findEnvIn (a.solve b callOpts).backend.envs b.nextEnv =
        some { envId := b.nextEnv, started := false, closed := true,
               params := applyAll [] a.options }) ∧
    (∀ (b : Backend) (e : Nat) (k : String) (v : GValue) (env : GEnv),
      findEnvIn b.envs e = some env → env.closed = false → env.started = true →
      b.envSetParam e k v =
        Except.error (GurobiErr.invalidState "environment already started")) := by
  constructor
  · intro a b callOpts k v hman henv hcur hclosed hwfE hvo hkmem hke
    have hk : k ∈ keysOf a.options := List.mem_map_of_mem Prod.fst hkmem
    have hhe : hasEnvOnly (applyAll [] a.options) = true :=
      hasEnvOnly_of_mem_key _ k (mem_keys_applyAll a.options k [] hk) hke
    obtain ⟨bF, hEE, hfind⟩ := ensureEnv_managed_fresh_hostError a b hman henv hwfE hvo hhe
    have hsolve : a.solve b callOpts =
        { backend := bF, adapter := a,
          result := Except.error (AdapterErr.solveError "Could not resolve host") } := by
      simp only [GurobiDirect.solve, hclosed, hcur]
      rw [if_neg Bool.false_ne_true, adapter_eta a hcur hclosed, hEE]
    rw [hsolve]
    exact ⟨rfl, hfind⟩
  · intro b e k v env hf hc hs
    exact envSetParam_started b e k v env hf hc hs

/-- Witness for C6: the `test_set_environment_options` scenario
(`ComputeServer` staged on a managed environment) and a setting attempt on
the started environment of `heldBackend`. -/
theorem C6_env_settings_before_start_witness :
    (((GurobiDirect.new true [("ComputeServer", GValue.str "/url/to/server")]).solve
        (Backend.init 1) []).result =
      Except.error (AdapterErr.solveError "Could not resolve host") ∧
     findEnvIn ((GurobiDirect.new true
          [("ComputeServer", GValue.str "/url/to/server")]).solve
        (Backend.init 1) []).backend.envs 0 =
      some { envId := 0, started := false, closed := true,
             params := applyAll [] [("ComputeServer", GValue.str "/url/to/server")] }) ∧
    heldBackend.envSetParam 0 "Method" (GValue.int 2) =
      Except.error (GurobiErr.invalidState "environment already started") :=
  ⟨C6_env_settings_before_start.1
      (GurobiDirect.new true [("ComputeServer", GValue.str "/url/to/server")])
      (Backend.init 1) [] "ComputeServer" (GValue.str "/url/to/server") rfl rfl rfl rfl
      (by decide) (by decide) (by decide) (by decide),
    C6_env_settings_before_start.2 heldBackend 0 "Method" (GValue.int 2)
      { envId := 0, started := true, closed := false, params := [] }
      (by decide) (by decide) (by decide)⟩

/-- C7: an environment-only setting passed to an adapter without
`manage_env` makes the solve fail with the backend's "Unable to modify"
error, and no environment-only setting is silently recorded on the model
handle. -/
theorem C7_env_only_unmanaged (a : GurobiDirect) (b : Backend)
    (callOpts : OptList) (k : String) (v : GValue)
    (hman : a.manage_env = false) (henv : a.env = none) (hcur : a.curModel = none)
    (hclosed : a.closed = false)
    (hwfE : b.wfEnvs) (hwfM : b.wfModels) (hdef : b.defaultEnv = none)
    (hcap : countLiveEnvs b.envs < b.licenseSlots)
    (hvo : allValid a.options) (hvc : allValid callOpts)
    (hkmem : (k, v) ∈ mergeOpts a.options callOpts) (hke : isEnvOnly k = true) :
    (∃ msg, (a.solve b callOpts).result =
      Except.error (AdapterErr.gurobiError (GurobiErr.unableToModify msg))) ∧
    (∃ md', findModelIn (a.solve b callOpts).backend.models b.nextModel = some md' ∧
      ∀ k', isEnvOnly k' = true → lookupKV md'.params k' = none) := by
  obtain ⟨b2, hDef, hfindE, hmodels2, hnM2, hslots2⟩ :=
    ensureDefaultEnv_fresh_ok b hwfE hdef hcap
  have hEE : a.ensureEnv b = (b2, a, Except.ok b.nextEnv) := by
    simp only [GurobiDirect.ensureEnv, hman]
    rw [if_neg Bool.false_ne_true, hDef]
  have hCM := createModel_eq_ok b2 b.nextEnv
    { envId := b.nextEnv, started := true, closed := false, params := [] }
    hfindE rfl rfl
  rw [hnM2] at hCM
  have hmfresh : ∀ x ∈ b2.models, ¬ x.modelId = b.nextModel := by
    intro x hx
    rw [hmodels2] at hx
    exact fun he => Nat.ne_of_lt (hwfM.1 x hx) he
  have hfindM : findModelIn (b2.models ++
      [{ modelId := b.nextModel, envId := b.nextEnv, closed := false, params := [] }])
      b.nextModel =
      some { modelId := b.nextModel, envId := b.nextEnv, closed := false, params := [] } := by
    rw [findModelIn_append, findModelIn_eq_none b2.models b.nextModel hmfresh]
    simp [findModelIn]
  have hvlist : allValid (("OutputFlag", GValue.int 0) ::
      (mergeOpts a.options callOpts).filter (settingNeeded [])) := by
    intro p hp
    rcases List.mem_cons.mp hp with hp | hp
    · rw [hp]
      rfl
    · rcases mem_applyAll _ _ _ (List.mem_of_mem_filter hp) with hp' | hp'
      · exact hvo p hp'
      · exact hvc p hp'
  have hex : ∃ p ∈ (("OutputFlag", GValue.int 0) ::
      (mergeOpts a.options callOpts).filter (settingNeeded [])), isEnvOnly p.1 = true := by
    refine ⟨(k, v), List.mem_cons_of_mem _ ?_, hke⟩
    rw [filter_settingNeeded_nil]
    exact hkmem
  obtain ⟨b5, msg, hrun, md', hfindMd, hclMd, hpres⟩ :=
    applyModelParams_envOnly
      (("OutputFlag", GValue.int 0) ::
        (mergeOpts a.options callOpts).filter (settingNeeded []))
      { b2 with
        models := b2.models ++
          [{ modelId := b.nextModel, envId := b.nextEnv, closed := false, params := [] }],
        nextModel := b.nextModel + 1,
        events := b2.events ++ [Event.modelCreate b.nextModel b.nextEnv] }
      b.nextModel
      { modelId := b.nextModel, envId := b.nextEnv, closed := false, params := [] }
      hfindM rfl hvlist hex
  have hsolve : a.solve b callOpts =
      { backend := b5,
        adapter := { a with curModel := some b.nextModel },
        result := Except.error (AdapterErr.gurobiError (GurobiErr.unableToModify msg)) } := by
    simp only [GurobiDirect.solve, hclosed, hcur]
    rw [if_neg Bool.false_ne_true, adapter_eta a hcur hclosed, hEE]
    simp only [hCM, henv, hrun]
    rw [hclosed]
  rw [hsolve]
  refine ⟨⟨msg, rfl⟩, md', hfindMd, ?_⟩
  intro k' hk'
  rw [hpres k' hk']
  rfl

/-- Witness for C7: the `test_set_environment_options_notmanaged` scenario
(`ComputeServer` on an unmanaged adapter). -/
theorem C7_env_only_unmanaged_witness :
    (∃ msg, ((GurobiDirect.new false
        [("ComputeServer", GValue.str "/url/to/server")]).solve
        (Backend.init 1) []).result =
      Except.error (AdapterErr.gurobiError (GurobiErr.unableToModify msg))) ∧
    (∃ md', findModelIn ((GurobiDirect.new false
        [("ComputeServer", GValue.str "/url/to/server")]).solve
        (Backend.init 1) []).backend.models 0 = some md' ∧
      ∀ k', isEnvOnly k' = true → lookupKV md'.params k' = none) :=
  C7_env_only_unmanaged
    (GurobiDirect.new false [("ComputeServer", GValue.str "/url/to/server")])
    (Backend.init 1) [] "ComputeServer" (GValue.str "/url/to/server")
    rfl rfl rfl rfl (by decide) (by decide) rfl (by decide) (by decide) (by decide)
    (by decide) (by decide)

/-- C8: the effective option mapping of a solve is the merge of constructor
options with call-time options where the call-time value wins on every
conflicting name — both as a property of the merge itself and as observed on
the recorded settings of a successful managed solve. -/
theorem C8_call_time_wins :
    (∀ (ctor call : OptList), (keysOf call).Nodup → ∀ k,
      lookupKV (mergeOpts ctor call) k =
        match lookupKV call k with
        | some v => some v
        | none => lookupKV ctor k) ∧
    (∀ (a : GurobiDirect) (b : Backend) (callOpts : OptList),
      a.manage_env = true → a.env = none → a.curModel = none → a.closed = false →
      b.wfEnvs → b.wfModels → allValid a.options → noEnvOnly a.options →
      allValid callOpts → noEnvOnly callOpts →
      countLiveEnvs b.envs < b.licenseSlots →
      (keysOf a.options).Nodup → (keysOf callOpts).Nodup →
      ∀ k, ¬ k = "OutputFlag" →
        effectiveValue (a.solve b callOpts) k =
          match lookupKV callOpts k with
          | some v => some v
          | none => lookupKV a.options k) := by
  refine ⟨fun ctor call hnd k => lookupKV_mergeOpts ctor call hnd k, ?_⟩
  intro a b callOpts hman henv hcur hclosed hwfE hwfM hvo hno hvc hnc hcap hndo hndc k hkOF
  rw [← lookupKV_mergeOpts a.options callOpts hndc k]
  cases hm : lookupKV (mergeOpts a.options callOpts) k with
  | some v =>
    rcases solve_setting_routed a b callOpts hman henv hcur hclosed hwfE hwfM hvo hno hvc hnc
        hcap hndo hndc k v hkOF hm with ⟨hE, hM⟩ | ⟨hE, hM⟩
    · simp only [effectiveValue, hM, hE]
    · simp only [effectiveValue, hM]
  | none =>
    obtain ⟨hE, hM⟩ := solve_setting_absent a b callOpts hman henv hcur hclosed hwfE hwfM
      hvo hno hvc hnc hcap hndc k hkOF hm
    simp only [effectiveValue, hM, hE]

/-- Witness for C8 at the `test_param_set` scenario: `MIPFocus` is present in
both mappings and the call-time value 2 wins. -/
theorem C8_call_time_wins_witness :
    (lookupKV (mergeOpts [("Method", GValue.int 2), ("MIPFocus", GValue.int 1)]
        [("MIPFocus", GValue.int 2)]) "MIPFocus" =
      match lookupKV [("MIPFocus", GValue.int 2)] "MIPFocus" with
      | some v => some v
      | none => lookupKV [("Method", GValue.int 2), ("MIPFocus", GValue.int 1)] "MIPFocus") ∧
    (effectiveValue paramSetOut "MIPFocus" =
      match lookupKV [("MIPFocus", GValue.int 2)] "MIPFocus" with
      | some v => some v
      | none => lookupKV [("Method", GValue.int 2), ("MIPFocus", GValue.int 1)] "MIPFocus") :=
  ⟨C8_call_time_wins.1 [("Method", GValue.int 2), ("MIPFocus", GValue.int 1)]
      [("MIPFocus", GValue.int 2)] (by decide) "MIPFocus",
    C8_call_time_wins.2
      (GurobiDirect.new true [("Method", GValue.int 2), ("MIPFocus", GValue.int 1)])
      (Backend.init 1) [("MIPFocus", GValue.int 2)] rfl rfl rfl rfl (by decide) (by decide)
      (by decide) (by decide) (by decide) (by decide) (by decide) (by decide) (by decide)
      "MIPFocus" (by decide)⟩

/-- C9: `close` is idempotent — closing the adapter a second time returns the
backend and adapter completely unchanged — and releasing an environment
handle a second time is a no-op on the backend (no error, no double
release). -/
theorem C9_close_idempotent (a : GurobiDirect) (b : Backend) (e : Nat) :
    ((a.close b).2).close (a.close b).1 = a.close b ∧
    (b.disposeEnv e).disposeEnv e = b.disposeEnv e := by
  constructor
  · cases a with
    | mk mng opts env0 cur0 cls =>
      cases mng <;> cases env0 <;> cases cur0 <;> rfl
  · cases hf : findEnvIn b.envs e with
    | none =>
      rw [disposeEnv_noop_absent b e hf, disposeEnv_noop_absent b e hf]
    | some env =>
      by_cases hcl : env.closed = true
      · rw [disposeEnv_noop_closed b e env hf hcl, disposeEnv_noop_closed b e env hf hcl]
      · have h1 := disposeEnv_find_self b e env hf (by simpa using hcl)
        exact disposeEnv_noop_closed (b.disposeEnv e) e { env with closed := true } h1 rfl

/-- C10 (counterexample): when the caller supplies `OutputFlag 1`, the solve
succeeds but the recorded model settings carry `OutputFlag 1`, not the
adapter default `OutputFlag 0` — the default is applied first and the
caller's value overwrites it. -/
theorem C10_counterexample :
    outputFlagOut.result = Except.ok () ∧
    lookupKV (recordedModelParams outputFlagOut) "OutputFlag" = some (GValue.int 1) ∧
    ¬ lookupKV (recordedModelParams outputFlagOut) "OutputFlag" = some (GValue.int 0) := by
  refine ⟨rfl, rfl, ?_⟩
  intro h
  rw [show lookupKV (recordedModelParams outputFlagOut) "OutputFlag" =
      some (GValue.int 1) from rfl] at h
  simp at h

/-- C10 (amended): `OutputFlag 0` is always applied to the model handle
first, so whenever the caller supplies no `OutputFlag` of their own (at
construction or at the call) the recorded model settings carry
`OutputFlag 0`; a caller-supplied value overwrites it. -/
theorem C10_amended_outputflag (a : GurobiDirect) (b : Backend) (callOpts : OptList)
    (hman : a.manage_env = true) (henv : a.env = none) (hcur : a.curModel = none)
    (hclosed : a.closed = false)
    (hwfE : b.wfEnvs) (hwfM : b.wfModels)
    (hvo : allValid a.options) (hno : noEnvOnly a.options)
    (hvc : allValid callOpts) (hnc : noEnvOnly callOpts)
    (hcap : countLiveEnvs b.envs < b.licenseSlots)
    (hm : lookupKV (mergeOpts a.options callOpts) "OutputFlag" = none) :
    lookupKV (recordedModelParams (a.solve b callOpts)) "OutputFlag" =
      some (GValue.int 0) := by
  obtain ⟨hrE, hrM⟩ := solve_recorded_params a b callOpts hman henv hcur hclosed hwfE hwfM
    hvo hno hvc hnc hcap
  rw [hrM]
  rw [show applyAll [] (("OutputFlag", GValue.int 0) ::
      (mergeOpts a.options callOpts).filter (settingNeeded (applyAll [] a.options))) =
      applyAll [("OutputFlag", GValue.int 0)]
        ((mergeOpts a.options callOpts).filter (settingNeeded (applyAll [] a.options)))
    from rfl]
  have hflt := lookupKV_filter_none (mergeOpts a.options callOpts)
    (settingNeeded (applyAll [] a.options)) "OutputFlag" hm
  rw [lookupKV_applyAll_of_none _ _ _ hflt]
  rfl

/-- Witness for C10 (amended): one managed solve with no caller options
records `OutputFlag 0` on the model (as `test_param_set` asserts in the
default case). -/
theorem C10_amended_outputflag_witness :
    lookupKV (recordedModelParams ((GurobiDirect.new true []).solve (Backend.init 1) []))
      "OutputFlag" = some (GValue.int 0) :=
  C10_amended_outputflag (GurobiDirect.new true []) (Backend.init 1) [] rfl rfl rfl rfl
    (by decide) (by decide) (by decide) (by decide) (by decide) (by decide) (by decide)
    (by decide)
